import Mathlib

/-!
# Verification of the x402 payment-gating middleware core

A shallow embedding of the request-interception core of the
`grpc-gateway-x402` repository: the pricing-rule resolver
(`Config.MatchEndpoint` / `Config.MatchMethod` with Go `path.Match`
glob semantics), the dual-version (V1/V2) credential decoding, the
protocol state machine of the HTTP middleware and the gRPC unary and
stream interceptors, and the payment-context propagation helpers.

Go machine integers are modelled as `Int`, Go strings as Lean
`String`, Go `nil`-able pointers and `interface{}` presence as
`Option`, Go `(value, error)` returns as `Except String`.  The
base64/JSON transcoding layer is out of the modelled core: a header or
metadata value is represented by the outcome of that syntactic stage
(`Wire.malformed` for bad base64 / bad JSON, `Wire.parsed v` for a
successfully unmarshalled value), and the semantic validation the
source performs on the unmarshalled value is translated verbatim.
-/

namespace X402

/-- Decidable equality for `Except`, used to evaluate the codecs and
verifier outcomes on concrete inputs. -/
instance exceptDecEq {ε α : Type} [DecidableEq ε] [DecidableEq α] :
    DecidableEq (Except ε α) := fun a b =>
  match a, b with
  | .error e, .error f =>
    if h : e = f then .isTrue (by rw [h])
    else .isFalse (by intro hh; cases hh; exact h rfl)
  | .error _, .ok _ => .isFalse (by intro hh; cases hh)
  | .ok _, .error _ => .isFalse (by intro hh; cases hh)
  | .ok x, .ok y =>
    if h : x = y then .isTrue (by rw [h])
    else .isFalse (by intro hh; cases hh; exact h rfl)

/-! ## Go `path.Match`, as used by `matchPath`

Translated from Go's `path/match.go` (`Match`, `scanChunk`,
`matchChunk`, `getEsc`).  Strings are handled as `List Char` (Go
decodes runes; for the ASCII patterns of this repository the two
coincide).  The recursion of the Go loops is bounded with a fuel
argument that strictly exceeds the number of loop iterations: every
outer iteration consumes at least one pattern character and every
star-retry iteration consumes one name character, so
`(|pattern| + 1) * (|name| + 2) + 1` steps can never be exhausted.
`ErrBadPattern` is collapsed to a non-match (`none` below becomes
`false`), exactly as the caller `matchPath` discards the error. -/

/-- Result of Go `path.matchChunk`: remaining name on success, a plain
mismatch, or a bad pattern. -/
inductive ChunkRes where
  | ok (rest : List Char)
  | nomatch
  | bad
deriving DecidableEq

/-- Go `path.getEsc`: one (possibly backslash-escaped) character of a
character class, with the remaining chunk; `none` is `ErrBadPattern`. -/
def getEsc : List Char → Option (Char × List Char)
  | [] => none
  | c :: rest =>
    if c == '-' || c == ']' then none
    else if c == '\\' then
      match rest with
      | [] => none
      | c2 :: rest2 => if rest2.isEmpty then none else some (c2, rest2)
    else if rest.isEmpty then none else some (c, rest)

/-- The range-list loop of Go `path.matchChunk`'s `[` case: scans
`lo`-`hi` ranges until the closing `]`, accumulating whether `r` fell
in any range. `started` is Go's `nrange > 0`. -/
def matchRanges : Nat → Char → Bool → Bool → List Char → Option (Bool × List Char)
  | 0, _, _, _, _ => none
  | fuel + 1, r, started, acc, chunk =>
    if started && (chunk.head? == some ']') then some (acc, chunk.tail)
    else
      match getEsc chunk with
      | none => none
      | some (lo, chunk1) =>
        match chunk1 with
        | '-' :: chunk2 =>
          match getEsc chunk2 with
          | none => none
          | some (hi, chunk3) =>
            matchRanges fuel r true
              (acc || (decide (lo.val ≤ r.val) && decide (r.val ≤ hi.val))) chunk3
        | _ =>
          matchRanges fuel r true
            (acc || (decide (lo.val ≤ r.val) && decide (r.val ≤ lo.val))) chunk1

/-- Go `path.matchChunk` with its `failed` flag: matches a chunk
against the head of `s`, continuing on mismatch only to surface bad
patterns, as the Go code does. -/
def matchChunk : Nat → List Char → List Char → Bool → ChunkRes
  | 0, _, _, _ => .bad
  | fuel + 1, chunk, s, failed0 =>
    match chunk with
    | [] => if failed0 then .nomatch else .ok s
    | c :: rest =>
      let failed := failed0 || s.isEmpty
      if c == '[' then
        let r := if failed then Char.ofNat 0 else s.headD (Char.ofNat 0)
        let s1 := if failed then s else s.tail
        let negated := rest.head? == some '^'
        let rest1 := if negated then rest.tail else rest
        match matchRanges (rest1.length + 1) r false false rest1 with
        | none => .bad
        | some (m, rest2) => matchChunk fuel rest2 s1 (failed || (m == negated))
      else if c == '?' then
        if failed then matchChunk fuel rest s failed
        else matchChunk fuel rest s.tail (s.headD (Char.ofNat 0) == '/')
      else if c == '\\' then
        match rest with
        | [] => .bad
        | c2 :: rest2 =>
          if failed then matchChunk fuel rest2 s failed
          else matchChunk fuel rest2 s.tail (!(c2 == s.headD (Char.ofNat 0)))
      else
        if failed then matchChunk fuel rest s failed
        else matchChunk fuel rest s.tail (!(c == s.headD (Char.ofNat 0)))

/-- The leading-star consumption of Go `path.scanChunk`. -/
def dropStars : List Char → List Char
  | '*' :: rest => dropStars rest
  | p => p

/-- The chunk scan of Go `path.scanChunk` (after leading stars):
splits the pattern at the next top-level `*`, keeping backslash
escapes together and ignoring `*` inside a character class. -/
def scanChunkCore : List Char → Bool → List Char × List Char
  | [], _ => ([], [])
  | c :: rest, inrange =>
    if c == '\\' then
      match rest with
      | c2 :: rest2 =>
        let (chunk, rem) := scanChunkCore rest2 inrange
        (c :: c2 :: chunk, rem)
      | [] => ([c], [])
    else if c == '*' && !inrange then ([], c :: rest)
    else
      let inrange1 := if c == '[' then true else if c == ']' then false else inrange
      let (chunk, rem) := scanChunkCore rest inrange1
      (c :: chunk, rem)

mutual

/-- The main loop of Go `path.Match`. -/
def goMatch : Nat → List Char → List Char → Option Bool
  | 0, _, _ => none
  | fuel + 1, pattern, name =>
    match pattern with
    | [] => some name.isEmpty
    | _ :: _ =>
      let star := pattern.head? == some '*'
      let p1 := dropStars pattern
      let (chunk, rest) := scanChunkCore p1 false
      if star && chunk.isEmpty then
        some (!name.contains '/')
      else
        match matchChunk (chunk.length + 1) chunk name false with
        | .ok t =>
          if t.isEmpty || !rest.isEmpty then goMatch fuel rest t
          else if star then starRetry fuel chunk rest name
          else some false
        | .bad => none
        | .nomatch =>
          if star then starRetry fuel chunk rest name else some false

/-- The star-retry inner loop of Go `path.Match`: skip one name
character at a time (never across `/`) and retry the chunk. -/
def starRetry : Nat → List Char → List Char → List Char → Option Bool
  | 0, _, _, _ => none
  | _ + 1, _, _, [] => some false
  | fuel + 1, chunk, rest, c :: tail =>
    if c == '/' then some false
    else
      match matchChunk (chunk.length + 1) chunk tail false with
      | .ok t =>
        if rest.isEmpty && !t.isEmpty then starRetry fuel chunk rest tail
        else goMatch fuel rest t
      | .bad => none
      | .nomatch => starRetry fuel chunk rest tail

end

/-- Go `path.Match pattern name` as consumed by `matchPath`: the
discarded `ErrBadPattern` becomes a non-match. -/
def pathMatch (pattern name : String) : Bool :=
  match goMatch ((pattern.length + 1) * (name.length + 2) + 1) pattern.toList name.toList with
  | some b => b
  | none => false

/-- Go `strings.HasPrefix`, over the character lists (kernel-reducible,
unlike `String.startsWith`). -/
def hasPrefix (s pre : String) : Bool :=
  pre.toList.isPrefixOf s.toList

/-- Go `strings.HasSuffix`, over the character lists. -/
def hasSuffix (s post : String) : Bool :=
  post.toList.isSuffixOf s.toList

/-- Go `strings.TrimSuffix s post` for the case the suffix is present:
drop the last `post.length` characters. -/
def trimSuffix (s post : String) : String :=
  String.mk (s.toList.take (s.toList.length - post.toList.length))

/-- `matchPath` from `config.go`: exact match, then the `/*` wildcard
rule (the identifier equals the stem or extends it with `/`), then
`path.Match` globbing. -/
def matchPath (requestPath pattern : String) : Bool :=
  if requestPath == pattern then true
  else if hasSuffix pattern "/*" then
    let pre := trimSuffix pattern "/*"
    hasPrefix requestPath (pre ++ "/") || requestPath == pre
  else pathMatch pattern requestPath

/-! ## Data model (`config.go`, `types.go`)

Fields of type `map[string]interface{}` (`OutputSchema`, `Extensions`)
are opaque JSON never inspected by the core and are not modelled.  The
`Extra` metadata map is built by the core from string values only and
is modelled as an association list. -/

/-- `TokenRequirement` from `config.go`. -/
structure TokenRequirement where
  network : String
  assetContract : String
  symbol : String
  recipient : String
  tokenName : String
  tokenDecimals : Int
deriving DecidableEq

/-- `PricingRule` from `config.go`. -/
structure PricingRule where
  amount : String
  acceptedTokens : List TokenRequirement
  description : String
  mimeType : String
deriving DecidableEq

/-- `Config` from `config.go`.  The Go maps are modelled as
association lists (Go map iteration order is arbitrary; every theorem
below about the wildcard scan holds for any order).  The `Verifier` is
not part of the configuration data: its per-request behaviour is a
separate input of the state-machine steps. -/
structure Config where
  endpointPricing : List (String × PricingRule)
  methodPricing : List (String × PricingRule)
  defaultPricing : Option PricingRule
  validityDurationSeconds : Int
  skipPaths : List String
  skipMethods : List String
  customPaywallHTML : String
deriving DecidableEq

/-- Exact-key lookup in a pricing table (`c.EndpointPricing[requestPath]`). -/
def lookupRule : List (String × PricingRule) → String → Option PricingRule
  | [], _ => none
  | (k, r) :: rest, key => if k == key then some r else lookupRule rest key

/-- The wildcard scan of `MatchEndpoint` / `MatchMethod`: fold over
the table keeping the longest matching pattern (`len(pattern) >
len(bestMatch)`), starting from Go's zero values `("", nil)`. -/
def bestWildcard (requestPath : String) : List (String × PricingRule) →
    String × Option PricingRule → String × Option PricingRule
  | [], best => best
  | (pattern, rule) :: rest, best =>
    bestWildcard requestPath rest
      (if matchPath requestPath pattern && decide (pattern.length > best.1.length)
       then (pattern, some rule) else best)

/-- `Config.MatchEndpoint` from `config.go`: skip list first, then
exact key, then longest matching wildcard, then the default rule. -/
def Config.MatchEndpoint (c : Config) (requestPath : String) : Option PricingRule × Bool :=
  if c.skipPaths.any (fun skipPath => matchPath requestPath skipPath) then (none, false)
  else
    match lookupRule c.endpointPricing requestPath with
    | some rule => (some rule, true)
    | none =>
      match (bestWildcard requestPath c.endpointPricing ("", none)).2 with
      | some rule => (some rule, true)
      | none =>
        match c.defaultPricing with
        | some d => (some d, true)
        | none => (none, false)

/-- `Config.MatchMethod` from `config.go`: the same resolution over
`MethodPricing` and `SkipMethods`. -/
def Config.MatchMethod (c : Config) (fullMethod : String) : Option PricingRule × Bool :=
  if c.skipMethods.any (fun skipMethod => matchPath fullMethod skipMethod) then (none, false)
  else
    match lookupRule c.methodPricing fullMethod with
    | some rule => (some rule, true)
    | none =>
      match (bestWildcard fullMethod c.methodPricing ("", none)).2 with
      | some rule => (some rule, true)
      | none =>
        match c.defaultPricing with
        | some d => (some d, true)
        | none => (none, false)

/-! ## Wire types (`types.go`, V1 `types.go`) -/

/-- V2 `PaymentRequirements` from `types.go`.  `Extra` is an
association list of the string values the core writes into it. -/
structure PaymentRequirements where
  scheme : String
  network : String
  amount : String
  asset : String
  payTo : String
  maxTimeoutSeconds : Int
  extra : List (String × String)
deriving DecidableEq

/-- V2 `PaymentPayload` from `types.go`.  The scheme-specific
`Payload interface{}` is opaque to the core, which only tests it
against `nil`: it is modelled as an `Option` of an opaque blob. -/
structure PaymentPayload where
  x402Version : Int
  accepted : PaymentRequirements
  payload : Option String
deriving DecidableEq

/-- V1 `LegacyPayment` from `types.go` (a parsed `X-PAYMENT` header in
the V2 middleware). -/
structure LegacyPayment where
  x402Version : Int
  scheme : String
  network : String
  payload : Option String
deriving DecidableEq

/-- V1 `Payment` from the legacy `types.go` (a parsed `X-PAYMENT`
header in the V1 middleware). -/
structure Payment where
  x402Version : Int
  scheme : String
  network : String
  payload : Option String
deriving DecidableEq

/-- `VerificationResult` (identical in the V1 and V2 type files). -/
structure VerificationResult where
  valid : Bool
  reason : String
  payerAddress : String
  amount : String
  tokenSymbol : String
deriving DecidableEq

/-- V2 `SettlementResult` from `types.go`.  `SettledAt` is a
`time.Time`, modelled as a `Nat` timestamp whose zero value is `0`. -/
structure SettlementResult where
  transactionHash : String
  status : String
  settledAt : Nat
  amount : String
  payerAddress : String
  recipientAddress : String
  network : String
deriving DecidableEq

/-- V1 `SettlementResult` (no `Network` field). -/
structure LegacySettlementResult where
  transactionHash : String
  status : String
  settledAt : Nat
  amount : String
  payerAddress : String
  recipientAddress : String
deriving DecidableEq

/-- `PaymentContext` (identical in the V1 and V2 type files). -/
structure PaymentContext where
  verified : Bool
  payerAddress : String
  amount : String
  tokenSymbol : String
  network : String
  transactionHash : String
  settledAt : Nat
deriving DecidableEq

/-- V2 `PaymentResponse` from `types.go` (the settlement receipt). -/
structure PaymentResponse where
  success : Bool
  transaction : String
  network : String
  payer : String
  errorReason : String
deriving DecidableEq

/-- V1 `PaymentResponse` from the legacy `types.go`. -/
structure LegacyPaymentResponse where
  transactionHash : String
  status : String
  message : String
deriving DecidableEq

/-- V2 `PaymentRequiredResponse` from `types.go` (the 402 body). -/
structure PaymentRequiredResponse where
  x402Version : Int
  error : String
  accepts : List PaymentRequirements
deriving DecidableEq

/-- Outcome of the base64 + JSON syntactic stage for one header or
metadata value: `malformed` covers a base64 decode error or a JSON
unmarshal error; `parsed` carries the unmarshalled value on which the
source then performs its semantic validation. -/
inductive Wire (α : Type) where
  | malformed
  | parsed (value : α)
deriving DecidableEq

/-! ## Payment codecs

The semantic validation stages of `middleware.go` (V2),
`grpc/metadata.go` and the legacy `middleware.go`, applied to the
outcome of the syntactic stage. -/

/-- `parsePaymentPayload` from the V2 HTTP `middleware.go`: rejects a
declared version below 2 and a missing scheme-specific payload. -/
def parsePaymentPayload : Wire PaymentPayload → Except String PaymentPayload
  | .malformed => .error "failed to decode base64 or parse JSON"
  | .parsed payload =>
    if payload.x402Version < 2 then
      .error "PAYMENT-SIGNATURE header requires x402Version >= 2"
    else
      match payload.payload with
      | none => .error "payload is required"
      | some _ => .ok payload

/-- `parseLegacyPayment` from the V2 HTTP `middleware.go`: validates
the V1 shape and upgrades it to a V2 `PaymentPayload`, populating the
`Accepted` stub from the server-side requirements when present. -/
def parseLegacyPayment (w : Wire LegacyPayment) (requirements : Option PaymentRequirements) :
    Except String PaymentPayload :=
  match w with
  | .malformed => .error "failed to decode base64 or parse JSON"
  | .parsed legacy =>
    if legacy.x402Version == 0 then .error "x402Version is required"
    else if legacy.scheme == "" then .error "scheme is required"
    else if legacy.network == "" then .error "network is required"
    else
      match legacy.payload with
      | none => .error "payload is required"
      | some pl =>
        let base : PaymentRequirements :=
          { scheme := legacy.scheme, network := legacy.network, amount := "",
            asset := "", payTo := "", maxTimeoutSeconds := 0, extra := [] }
        let accepted :=
          match requirements with
          | some r => { base with amount := r.amount, asset := r.asset, payTo := r.payTo }
          | none => base
        .ok { x402Version := legacy.x402Version, accepted := accepted, payload := some pl }

/-- `DecodePaymentPayload` from `grpc/metadata.go`: the gRPC V2
decoder rejects only a missing scheme-specific payload (it performs no
version check). -/
def DecodePaymentPayload : Wire PaymentPayload → Except String PaymentPayload
  | .malformed => .error "failed to decode base64 or unmarshal JSON"
  | .parsed payload =>
    match payload.payload with
    | none => .error "payload is required"
    | some _ => .ok payload

/-- `DecodeLegacyPayment` from `grpc/metadata.go`: validates the V1
shape and upgrades it, leaving the `Accepted` stub with only the
legacy scheme and network. -/
def DecodeLegacyPayment : Wire LegacyPayment → Except String PaymentPayload
  | .malformed => .error "failed to decode base64 or unmarshal JSON"
  | .parsed legacy =>
    if legacy.x402Version == 0 then .error "x402Version is required"
    else if legacy.scheme == "" then .error "scheme is required"
    else if legacy.network == "" then .error "network is required"
    else
      match legacy.payload with
      | none => .error "payload is required"
      | some pl =>
        .ok { x402Version := legacy.x402Version,
              accepted := { scheme := legacy.scheme, network := legacy.network, amount := "",
                            asset := "", payTo := "", maxTimeoutSeconds := 0, extra := [] },
              payload := some pl }

/-- `parsePayment` from the legacy V1 `middleware.go`. -/
def parsePayment : Wire Payment → Except String Payment
  | .malformed => .error "failed to decode base64 or parse JSON"
  | .parsed payment =>
    if payment.x402Version == 0 then .error "x402Version is required"
    else if payment.scheme == "" then .error "scheme is required"
    else if payment.network == "" then .error "network is required"
    else
      match payment.payload with
      | none => .error "payload is required"
      | some _ => .ok payment

/-! ## Requirements construction -/

/-- `buildRequirementsFromRule` from the V2 HTTP `middleware.go`:
first accepted token, or Go `nil` when the rule has none. -/
def buildRequirementsFromRule (rule : PricingRule) : Option PaymentRequirements :=
  match rule.acceptedTokens with
  | [] => none
  | token :: _ =>
    some { scheme := "exact", network := token.network, amount := rule.amount,
           asset := token.assetContract, payTo := token.recipient,
           maxTimeoutSeconds := 0, extra := [] }

/-- `BuildPaymentRequirements` from `grpc/metadata.go` (its
`fullMethod` and `validityDuration` parameters are ignored by the Go
body and omitted here). -/
def BuildPaymentRequirements (rule : PricingRule) : List PaymentRequirements :=
  rule.acceptedTokens.map fun token =>
    { scheme := "exact", network := token.network, amount := rule.amount,
      asset := token.assetContract, payTo := token.recipient,
      maxTimeoutSeconds := 0, extra := [] }

/-- The accepts array built inside the V2 HTTP `sendPaymentRequired`
(per-token fan-out with `MaxTimeoutSeconds` and the `Extra` map). -/
def buildAcceptsHttp (rule : PricingRule) (validityDurationSeconds : Int) :
    List PaymentRequirements :=
  rule.acceptedTokens.map fun token =>
    { scheme := "exact", network := token.network, amount := rule.amount,
      asset := token.assetContract, payTo := token.recipient,
      maxTimeoutSeconds := validityDurationSeconds,
      extra := [("name", token.tokenName), ("version", "2")] }

/-! ## Requests, verifier behaviour, browser detection -/

/-- Go `strings.Contains`, over character lists (this is also exactly
the manual `contains`/`findSubstring` scan of the V1 `middleware.go`). -/
def containsSubstring (s sub : String) : Bool :=
  s.toList.tails.any fun t => sub.toList.isPrefixOf t

/-- `isBrowserRequest` from `middleware.go`: a non-empty `User-Agent`
containing one of the known browser indicators. -/
def isBrowserRequest (userAgent : String) : Bool :=
  if userAgent == "" then false
  else
    ["Mozilla/", "Chrome/", "Safari/", "Firefox/", "Edge/", "Opera/"].any
      fun indicator => containsSubstring userAgent indicator

/-- One V2 HTTP request as the middleware sees it.  A header slot is
`none` when `r.Header.Get` returns the empty string, and otherwise
carries the syntactic-stage outcome of its value. -/
structure HttpRequest where
  path : String
  paymentSignature : Option (Wire PaymentPayload)
  xPayment : Option (Wire LegacyPayment)
  userAgent : String

/-- The per-request behaviour of the `ChainVerifier` capability (V2
interface): outcomes of the two external calls as functions of their
arguments.  `Verify` may receive Go `nil` requirements, hence the
`Option`. -/
structure VerifierBehavior where
  verify : PaymentPayload → Option PaymentRequirements → Except String VerificationResult
  settle : PaymentPayload → Option PaymentRequirements → Except String SettlementResult

/-- The per-request behaviour of the legacy V1 `ChainVerifier`
(`Verify(ctx, payment)` / `Settle(ctx, payment)`). -/
structure LegacyVerifierBehavior where
  verify : Payment → Except String VerificationResult
  settle : Payment → Except String LegacySettlementResult

/-- The inbound credential found by the version-detection step of the
V2 HTTP middleware. -/
inductive Credential where
  | absent
  | v2 (w : Wire PaymentPayload)
  | legacy (w : Wire LegacyPayment)
deriving DecidableEq

/-- The header detection of the V2 HTTP middleware: `PAYMENT-SIGNATURE`
first; `X-PAYMENT` only when it is empty. -/
def detectCredential (req : HttpRequest) : Credential :=
  match req.paymentSignature with
  | some w => .v2 w
  | none =>
    match req.xPayment with
    | some w => .legacy w
    | none => .absent

/-- `isV2` as computed by the V2 HTTP middleware's detection step. -/
def Credential.isV2 : Credential → Bool
  | .v2 _ => true
  | _ => false

/-- The parse dispatch of the V2 HTTP middleware (`parsePaymentPayload`
for V2, `parseLegacyPayment` with the built requirements for V1).  The
`.absent` case is unreachable there: the middleware answers 402 before
parsing. -/
def parseCredential : Credential → Option PaymentRequirements → Except String PaymentPayload
  | .v2 w, _ => parsePaymentPayload w
  | .legacy w, requirements => parseLegacyPayment w requirements
  | .absent, _ => .error "no payment header"

/-! ## The V2 HTTP middleware (`middleware.go`) -/

/-- The response produced by one pass of the V2 HTTP middleware.
`settled` means the handler was invoked with the payment context
injected and the version-appropriate receipt header already set; every
other constructor except `passThrough` is a response emitted without
invoking the handler. -/
inductive HttpOutcome where
  | paymentRequired (html : Bool) (body : Option PaymentRequiredResponse)
  | passThrough
  | clientError (message : String)
  | serverError (message : String)
  | settled (isV2 : Bool) (injected : PaymentContext) (receipt : PaymentResponse)
deriving DecidableEq

/-- `sendPaymentRequired` from the V2 HTTP `middleware.go`: the HTML
paywall for browsers when configured, otherwise the structured 402
body (also mirrored into the `PAYMENT-REQUIRED` header). -/
def sendPaymentRequiredHttp (cfg : Config) (req : HttpRequest) (rule : PricingRule) :
    HttpOutcome :=
  if cfg.customPaywallHTML != "" && isBrowserRequest req.userAgent then
    .paymentRequired true none
  else
    .paymentRequired false
      (some { x402Version := 2, error := "Payment required",
              accepts := buildAcceptsHttp rule cfg.validityDurationSeconds })

/-- `PaymentMiddleware` from the V2 HTTP `middleware.go`, per request.
Go's local `requirements` variable is written out as
`buildRequirementsFromRule rule` at each use.  The injected context's
`Network` reads `requirements.Network`; for a validated configuration
`buildRequirementsFromRule` is never `nil` there (`Validate` requires
at least one accepted token), and the `.getD ""` default is that
unreachable nil dereference. -/
def PaymentMiddlewareStep (cfg : Config) (vb : VerifierBehavior) (req : HttpRequest) :
    HttpOutcome :=
  match cfg.MatchEndpoint req.path with
  | (some rule, true) =>
    match detectCredential req with
    | .absent => sendPaymentRequiredHttp cfg req rule
    | cred =>
      match parseCredential cred (buildRequirementsFromRule rule) with
      | .error e => .clientError ("Invalid payment header: " ++ e)
      | .ok payload =>
        match vb.verify payload (buildRequirementsFromRule rule) with
        | .error e => .serverError ("Payment verification error: " ++ e)
        | .ok verifyResult =>
          if !verifyResult.valid then sendPaymentRequiredHttp cfg req rule
          else
            match vb.settle payload (buildRequirementsFromRule rule) with
            | .error e => .serverError ("Payment settlement error: " ++ e)
            | .ok settlementResult =>
              .settled cred.isV2
                { verified := true,
                  payerAddress := verifyResult.payerAddress,
                  amount := verifyResult.amount,
                  tokenSymbol := verifyResult.tokenSymbol,
                  network := ((buildRequirementsFromRule rule).map (fun r => r.network)).getD "",
                  transactionHash := settlementResult.transactionHash,
                  settledAt := settlementResult.settledAt }
                { success := true,
                  transaction := settlementResult.transactionHash,
                  network := settlementResult.network,
                  payer := settlementResult.payerAddress,
                  errorReason := "" }
  | _ => .passThrough

/-- Whether the wrapped handler runs under this outcome. -/
def HttpOutcome.handlerInvoked : HttpOutcome → Bool
  | .passThrough => true
  | .settled _ _ _ => true
  | _ => false

/-- The middleware-emitted HTTP status, when the middleware answers
instead of the handler. -/
def HttpOutcome.statusCode : HttpOutcome → Option Nat
  | .paymentRequired _ _ => some 402
  | .clientError _ => some 400
  | .serverError _ => some 500
  | _ => none

/-- The response header carrying the settlement receipt, when one is
set (version-aware: `PAYMENT-RESPONSE` or `X-PAYMENT-RESPONSE`). -/
def HttpOutcome.receiptHeaderKey : HttpOutcome → Option String
  | .settled true _ _ => some "PAYMENT-RESPONSE"
  | .settled false _ _ => some "X-PAYMENT-RESPONSE"
  | _ => none

/-- The payment context the middleware injected into the request
context, if any. -/
def HttpOutcome.injectedPayment : HttpOutcome → Option PaymentContext
  | .settled _ pc _ => some pc
  | _ => none

/-! ## The gRPC interceptors (`grpc/interceptor.go`, `grpc/stream.go`,
`grpc/metadata.go`) -/

/-- The two payment-credential slots of the inbound gRPC metadata:
`md.Get` value lists for `payment-signature` and `x402-payment`, each
value carrying its syntactic-stage outcome. -/
structure GrpcMetadata where
  paymentSignature : List (Wire PaymentPayload)
  legacyPayment : List (Wire LegacyPayment)

/-- One gRPC call as the interceptors see it. `mdPresent` is
`metadata.FromIncomingContext` reporting `ok`. -/
structure GrpcRequest where
  fullMethod : String
  mdPresent : Bool
  md : GrpcMetadata

/-- `ExtractPaymentFromMetadata` from `grpc/metadata.go`: the V2 key
first (even if it fails to decode), the V1 key only when the V2 key is
absent.  Returns the Go `(payload, err)` pair together with `isV2`. -/
def ExtractPaymentFromMetadata (md : GrpcMetadata) : Except String PaymentPayload × Bool :=
  match md.paymentSignature with
  | w :: _ => (DecodePaymentPayload w, true)
  | [] =>
    match md.legacyPayment with
    | w :: _ => (DecodeLegacyPayment w, false)
    | [] => (.error "no payment found in metadata", false)

/-- The result of one pass of a gRPC interceptor.  `settledOk` means
the handler ran with the payment context injected, succeeded, and the
version-appropriate trailer was set; `handlerFailed` means the handler
ran after settlement but returned an error, which is propagated with
no trailer.  The three status constructors are returned without
invoking the handler. -/
inductive GrpcOutcome where
  | passThrough
  | paymentRequiredStatus (body : PaymentRequiredResponse)
  | internalStatus (message : String)
  | unavailableStatus (message : String)
  | handlerFailed (injected : PaymentContext) (handlerError : String)
  | settledOk (isV2 : Bool) (injected : PaymentContext) (receipt : PaymentResponse)
deriving DecidableEq

/-- `sendPaymentRequired` from `grpc/interceptor.go`: a
`codes.ResourceExhausted` status whose message is the base64 encoding
of the `PaymentRequiredResponse` built by `EncodePaymentRequirements`. -/
def sendPaymentRequiredGrpc (rule : PricingRule) : GrpcOutcome :=
  .paymentRequiredStatus
    { x402Version := 2, error := "payment required",
      accepts := BuildPaymentRequirements rule }

/-- `UnaryServerInterceptor` from `grpc/interceptor.go`, per call.
`handler` is the outcome of the wrapped handler, consulted only when
the flow reaches it. -/
def UnaryServerInterceptorStep (cfg : Config) (vb : VerifierBehavior)
    (handler : Except String Unit) (req : GrpcRequest) : GrpcOutcome :=
  match cfg.MatchMethod req.fullMethod with
  | (some rule, true) =>
    if !req.mdPresent then sendPaymentRequiredGrpc rule
    else
      match ExtractPaymentFromMetadata req.md with
      | (.error _, _) => sendPaymentRequiredGrpc rule
      | (.ok payload, isV2) =>
        match BuildPaymentRequirements rule with
        | [] => .internalStatus "no payment requirements configured"
        | requirements :: _ =>
          match vb.verify payload (some requirements) with
          | .error e => .internalStatus ("payment verification error: " ++ e)
          | .ok verifyResult =>
            if !verifyResult.valid then sendPaymentRequiredGrpc rule
            else
              match vb.settle payload (some requirements) with
              | .error e => .unavailableStatus ("payment settlement failed: " ++ e)
              | .ok settlementResult =>
                let paymentCtx : PaymentContext :=
                  { verified := true,
                    payerAddress := verifyResult.payerAddress,
                    amount := verifyResult.amount,
                    tokenSymbol := verifyResult.tokenSymbol,
                    network := requirements.network,
                    transactionHash := settlementResult.transactionHash,
                    settledAt := settlementResult.settledAt }
                match handler with
                | .error e => .handlerFailed paymentCtx e
                | .ok _ =>
                  .settledOk isV2 paymentCtx
                    { success := true,
                      transaction := settlementResult.transactionHash,
                      network := settlementResult.network,
                      payer := settlementResult.payerAddress,
                      errorReason := "" }
  | _ => .passThrough

/-- `StreamServerInterceptor` from `grpc/stream.go`, per call: the
whole negotiation happens once, on the opening metadata, before the
handler; the trailer is set on the wrapped stream only when the
handler returned `nil`. -/
def StreamServerInterceptorStep (cfg : Config) (vb : VerifierBehavior)
    (handler : Except String Unit) (req : GrpcRequest) : GrpcOutcome :=
  match cfg.MatchMethod req.fullMethod with
  | (some rule, true) =>
    if !req.mdPresent then sendPaymentRequiredGrpc rule
    else
      match ExtractPaymentFromMetadata req.md with
      | (.error _, _) => sendPaymentRequiredGrpc rule
      | (.ok payload, isV2) =>
        match BuildPaymentRequirements rule with
        | [] => .internalStatus "no payment requirements configured"
        | requirements :: _ =>
          match vb.verify payload (some requirements) with
          | .error e => .internalStatus ("payment verification error: " ++ e)
          | .ok verifyResult =>
            if !verifyResult.valid then sendPaymentRequiredGrpc rule
            else
              match vb.settle payload (some requirements) with
              | .error e => .unavailableStatus ("payment settlement failed: " ++ e)
              | .ok settlementResult =>
                let paymentCtx : PaymentContext :=
                  { verified := true,
                    payerAddress := verifyResult.payerAddress,
                    amount := verifyResult.amount,
                    tokenSymbol := verifyResult.tokenSymbol,
                    network := requirements.network,
                    transactionHash := settlementResult.transactionHash,
                    settledAt := settlementResult.settledAt }
                match handler with
                | .error e => .handlerFailed paymentCtx e
                | .ok _ =>
                  .settledOk isV2 paymentCtx
                    { success := true,
                      transaction := settlementResult.transactionHash,
                      network := settlementResult.network,
                      payer := settlementResult.payerAddress,
                      errorReason := "" }
  | _ => .passThrough

/-- Whether the wrapped gRPC handler ran under this outcome. -/
def GrpcOutcome.handlerInvoked : GrpcOutcome → Bool
  | .passThrough => true
  | .handlerFailed _ _ => true
  | .settledOk _ _ _ => true
  | _ => false

/-- Whether the interceptor answered with a gRPC error status instead
of invoking the handler. -/
def GrpcOutcome.isStatusResponse : GrpcOutcome → Bool
  | .paymentRequiredStatus _ => true
  | .internalStatus _ => true
  | .unavailableStatus _ => true
  | _ => false

/-- The trailing metadata pair carrying the settlement receipt, when
one was set (version-aware key). -/
def GrpcOutcome.trailer : GrpcOutcome → Option (String × PaymentResponse)
  | .settledOk true _ receipt => some ("payment-response", receipt)
  | .settledOk false _ receipt => some ("x402-payment-response", receipt)
  | _ => none

/-- The payment context the interceptor injected, if any. -/
def GrpcOutcome.injectedPayment : GrpcOutcome → Option PaymentContext
  | .handlerFailed pc _ => some pc
  | .settledOk _ pc _ => some pc
  | _ => none

/-! ## The legacy V1 HTTP middleware (`middleware.go` at the module root) -/

/-- One V1 HTTP request: only the `X-PAYMENT` header carries a
credential. -/
structure LegacyHttpRequest where
  path : String
  xPayment : Option (Wire Payment)
  userAgent : String

/-- The response produced by one pass of the V1 middleware. -/
inductive LegacyHttpOutcome where
  | paymentRequired (html : Bool)
  | passThrough
  | clientError (message : String)
  | serverError (message : String)
  | settled (injected : PaymentContext) (receipt : LegacyPaymentResponse)
deriving DecidableEq

/-- `PaymentMiddleware` from the legacy V1 `middleware.go`, per
request.  The receipt is always set on `X-PAYMENT-RESPONSE`, before
the handler runs. -/
def LegacyPaymentMiddlewareStep (cfg : Config) (vb : LegacyVerifierBehavior)
    (req : LegacyHttpRequest) : LegacyHttpOutcome :=
  match cfg.MatchEndpoint req.path with
  | (some _, true) =>
    match req.xPayment with
    | none =>
      .paymentRequired (cfg.customPaywallHTML != "" && isBrowserRequest req.userAgent)
    | some w =>
      match parsePayment w with
      | .error e => .clientError ("Invalid X-PAYMENT header: " ++ e)
      | .ok payment =>
        match vb.verify payment with
        | .error e => .serverError ("Payment verification error: " ++ e)
        | .ok verifyResult =>
          if !verifyResult.valid then
            .paymentRequired (cfg.customPaywallHTML != "" && isBrowserRequest req.userAgent)
          else
            match vb.settle payment with
            | .error e => .serverError ("Payment settlement error: " ++ e)
            | .ok settlementResult =>
              .settled
                { verified := true,
                  payerAddress := verifyResult.payerAddress,
                  amount := verifyResult.amount,
                  tokenSymbol := verifyResult.tokenSymbol,
                  network := payment.network,
                  transactionHash := settlementResult.transactionHash,
                  settledAt := settlementResult.settledAt }
                { transactionHash := settlementResult.transactionHash,
                  status := settlementResult.status,
                  message := "" }
  | _ => .passThrough

/-- The payment context the V1 middleware injected, if any. -/
def LegacyHttpOutcome.injectedPayment : LegacyHttpOutcome → Option PaymentContext
  | .settled pc _ => some pc
  | _ => none

/-! ## Payment-context propagation (`middleware.go`, `grpcgateway.go`)

A request-scoped context is modelled by the value stored under the
single `PaymentContextKey`, i.e. an `Option PaymentContext`. -/

/-- `GetPaymentFromContext`: the `(value, ok)` pair of the Go type
assertion on the context value. -/
def GetPaymentFromContext (ctx : Option PaymentContext) : Option PaymentContext × Bool :=
  match ctx with
  | some payment => (some payment, true)
  | none => (none, false)

/-- `RequirePayment` from `middleware.go` (the gRPC variant differs
only in wrapping the same two messages in a status). -/
def RequirePayment (ctx : Option PaymentContext) : Except String PaymentContext :=
  match GetPaymentFromContext ctx with
  | (_, false) => .error "payment context not found"
  | (none, true) => .error "payment context not found"
  | (some payment, true) =>
    if !payment.verified then .error "payment not verified"
    else .ok payment

/-- `md.Get` over gRPC metadata modelled as the list of pairs written
by `md.Set` (all keys written below are distinct, so one pair per key). -/
def mdGet (md : List (String × String)) (key : String) : List String :=
  (md.filter fun kv => kv.1 == key).map fun kv => kv.2

/-- The metadata annotator installed by `WithPaymentMetadata` in
`grpcgateway.go`: re-emits the context's `PaymentContext` as metadata
pairs, one per field, only when the payment was verified; the token
symbol and transaction hash only when non-empty.  `SettledAt` is not
emitted. -/
def withPaymentMetadataPairs (ctx : Option PaymentContext) : List (String × String) :=
  match GetPaymentFromContext ctx with
  | (_, false) => []
  | (none, true) => []
  | (some payment, true) =>
    if payment.verified then
      [("x-payment-verified", "true"),
       ("x-payment-payer", payment.payerAddress),
       ("x-payment-amount", payment.amount),
       ("x-payment-network", payment.network)]
      ++ (if payment.tokenSymbol != "" then [("x-payment-token", payment.tokenSymbol)] else [])
      ++ (if payment.transactionHash != "" then [("x-payment-tx-hash", payment.transactionHash)]
          else [])
    else []

/-- `GetPaymentFromGRPCContext` from `grpcgateway.go`: reconstructs a
`PaymentContext` from incoming metadata; not-found when the metadata
is absent or `x-payment-verified` is not `"true"`.  The rebuilt
`SettledAt` stays the zero time. -/
def GetPaymentFromGRPCContext (mdPresent : Bool) (md : List (String × String)) :
    Option PaymentContext × Bool :=
  if !mdPresent then (none, false)
  else
    match mdGet md "x-payment-verified" with
    | [] => (none, false)
    | v :: _ =>
      if v != "true" then (none, false)
      else
        (some { verified := true,
                payerAddress := (mdGet md "x-payment-payer").headD "",
                amount := (mdGet md "x-payment-amount").headD "",
                tokenSymbol := (mdGet md "x-payment-token").headD "",
                network := (mdGet md "x-payment-network").headD "",
                transactionHash := (mdGet md "x-payment-tx-hash").headD "",
                settledAt := 0 }, true)

/-! ## Concrete example data, used by the witnesses below -/

/-- A fully populated token requirement (USDC on Base Sepolia, as in
the repository's tests). -/
def tokEx : TokenRequirement :=
  { network := "eip155:84532", assetContract := "0x123", symbol := "USDC",
    recipient := "0xabc", tokenName := "USD Coin", tokenDecimals := 6 }

/-- A pricing rule with one accepted token. -/
def ruleEx : PricingRule :=
  { amount := "1000000", acceptedTokens := [tokEx], description := "hello", mimeType := "" }

/-- A second pricing rule, distinguishable from `ruleEx`. -/
def ruleEx2 : PricingRule :=
  { amount := "2000000", acceptedTokens := [tokEx], description := "premium", mimeType := "" }

/-- A configuration pricing `/v1/hello` and `/pkg.Svc/Get`, with
wildcard rules and a skip list. -/
def cfgEx : Config :=
  { endpointPricing := [("/v1/hello", ruleEx), ("/v1/*", ruleEx), ("/v1/premium/*", ruleEx2)],
    methodPricing := [("/pkg.Svc/Get", ruleEx)],
    defaultPricing := none, validityDurationSeconds := 300,
    skipPaths := ["/health"], skipMethods := ["/pkg.Svc/Health"],
    customPaywallHTML := "" }

/-- A verifier behaviour that accepts and settles everything. -/
def vbOk : VerifierBehavior :=
  { verify := fun _ _ => .ok { valid := true, reason := "", payerAddress := "0xp",
                               amount := "1000000", tokenSymbol := "USDC" },
    settle := fun _ _ => .ok { transactionHash := "0xtx", status := "success", settledAt := 7,
                               amount := "1000000", payerAddress := "0xp",
                               recipientAddress := "0xabc", network := "eip155:84532" } }

/-- A well-formed V2 payload matching `ruleEx`. -/
def payloadEx : PaymentPayload :=
  { x402Version := 2,
    accepted := { scheme := "exact", network := "eip155:84532", amount := "1000000",
                  asset := "0x123", payTo := "0xabc", maxTimeoutSeconds := 0, extra := [] },
    payload := some "0xsig" }

/-- The same payload declaring `x402Version = 1`. -/
def payloadLowVersion : PaymentPayload := { payloadEx with x402Version := 1 }

/-- A well-formed V1 legacy payment. -/
def legacyEx : LegacyPayment :=
  { x402Version := 1, scheme := "exact", network := "base-sepolia", payload := some "0xsig" }

/-- An HTTP request to the priced endpoint with no credential. -/
def reqNoCred : HttpRequest :=
  { path := "/v1/hello", paymentSignature := none, xPayment := none, userAgent := "" }

/-- An HTTP request with a V2 credential (and also a V1 credential,
for the precedence claims). -/
def reqBothKeys : HttpRequest :=
  { path := "/v1/hello", paymentSignature := some (.parsed payloadEx),
    xPayment := some (.parsed legacyEx), userAgent := "" }

/-- An HTTP request with only the V1 credential. -/
def reqV1Only : HttpRequest :=
  { path := "/v1/hello", paymentSignature := none,
    xPayment := some (.parsed legacyEx), userAgent := "" }

/-- An HTTP request whose V2 credential is malformed base64/JSON. -/
def reqBadCred : HttpRequest :=
  { path := "/v1/hello", paymentSignature := some .malformed, xPayment := none, userAgent := "" }

/-- A gRPC call to the priced method with a V2 credential. -/
def grpcReqV2 : GrpcRequest :=
  { fullMethod := "/pkg.Svc/Get", mdPresent := true,
    md := { paymentSignature := [.parsed payloadEx], legacyPayment := [] } }

/-- A gRPC call with only a V1 credential. -/
def grpcReqV1 : GrpcRequest :=
  { fullMethod := "/pkg.Svc/Get", mdPresent := true,
    md := { paymentSignature := [], legacyPayment := [.parsed legacyEx] } }

/-- A gRPC call whose V2 credential is malformed. -/
def grpcReqBad : GrpcRequest :=
  { fullMethod := "/pkg.Svc/Get", mdPresent := true,
    md := { paymentSignature := [.malformed], legacyPayment := [] } }

/-- A gRPC call with no credential metadata at all. -/
def grpcReqNoCred : GrpcRequest :=
  { fullMethod := "/pkg.Svc/Get", mdPresent := true,
    md := { paymentSignature := [], legacyPayment := [] } }

/-- A verified payment context with a non-zero settlement time. -/
def pcEx : PaymentContext :=
  { verified := true, payerAddress := "0xp", amount := "1000000", tokenSymbol := "USDC",
    network := "eip155:8453", transactionHash := "0xtx", settledAt := 5 }

/-- Some stage of the V2 HTTP payment pipeline before a successful
settlement fails for this request: no credential, structural decode
failure, verifier error, verifier `valid = false`, or settlement
error. -/
def httpStageFailure (vb : VerifierBehavior) (req : HttpRequest) (rule : PricingRule) : Prop :=
  detectCredential req = .absent
  ∨ (∃ e, parseCredential (detectCredential req) (buildRequirementsFromRule rule) = .error e)
  ∨ (∃ payload,
      parseCredential (detectCredential req) (buildRequirementsFromRule rule) = .ok payload ∧
      ((∃ e, vb.verify payload (buildRequirementsFromRule rule) = .error e)
       ∨ (∃ v, vb.verify payload (buildRequirementsFromRule rule) = .ok v ∧
          (v.valid = false
           ∨ (v.valid = true ∧
              ∃ e, vb.settle payload (buildRequirementsFromRule rule) = .error e)))))

/-- Some stage of a gRPC interceptor's payment pipeline before a
successful settlement fails for this call: no metadata, no credential
or decode failure (both surface as the extraction error), verifier
error, verifier `valid = false`, or settlement error. -/
def grpcStageFailure (vb : VerifierBehavior) (req : GrpcRequest) (rule : PricingRule) : Prop :=
  req.mdPresent = false
  ∨ (∃ e b, ExtractPaymentFromMetadata req.md = (.error e, b))
  ∨ (∃ payload b r rest, ExtractPaymentFromMetadata req.md = (.ok payload, b) ∧
      BuildPaymentRequirements rule = r :: rest ∧
      ((∃ e, vb.verify payload (some r) = .error e)
       ∨ (∃ v, vb.verify payload (some r) = .ok v ∧
          (v.valid = false ∨ (v.valid = true ∧ ∃ e, vb.settle payload (some r) = .error e)))))

/-! ## Helper lemmas -/

/-- An exact-key miss means the key heads no entry of the table. -/
theorem lookupRule_none {table : List (String × PricingRule)} {key : String}
    (h : lookupRule table key = none) : ∀ v, (key, v) ∉ table := by
  induction table with
  | nil => intro v hv; cases hv
  | cons kr rest ih =>
    intro v hv
    obtain ⟨k, r⟩ := kr
    by_cases hk : k == key
    · simp [lookupRule, hk] at h
    · simp [lookupRule, hk] at h
      rcases List.mem_cons.mp hv with hEq | hMem
      · cases hEq; simp at hk
      · exact ih h v hMem

/-- The empty pattern matches only the empty identifier. -/
theorem matchPath_empty_pattern {id : String} (h : matchPath id "" = true) : id = "" := by
  by_cases hEq : id == ""
  · exact eq_of_beq hEq
  · exfalso
    unfold matchPath at h
    rw [if_neg (by simpa using hEq)] at h
    have hsuf : hasSuffix "" "/*" = false := by decide
    rw [hsuf] at h
    simp only [Bool.false_eq_true, if_false] at h
    unfold pathMatch at h
    have hlen : ("" : String).length = 0 := by decide
    rw [hlen] at h
    simp only [Nat.zero_add, Nat.one_mul] at h
    obtain ⟨l⟩ := id
    cases l with
    | nil => simp at hEq
    | cons c cs => simp [goMatch, String.toList] at h

/-- A string of length zero is empty. -/
theorem string_length_zero {s : String} (h : s.length = 0) : s = "" := by
  obtain ⟨l⟩ := s
  cases l with
  | nil => rfl
  | cons c cs => simp [String.length] at h

/-- The wildcard fold never shrinks the best pattern length. -/
theorem bestWildcard_ge (id : String) :
    ∀ (table : List (String × PricingRule)) (best : String × Option PricingRule),
      best.1.length ≤ (bestWildcard id table best).1.length := by
  intro table
  induction table with
  | nil => intro best; simp [bestWildcard]
  | cons kr rest ih =>
    intro best
    obtain ⟨p, r⟩ := kr
    simp only [bestWildcard]
    by_cases hc : matchPath id p && decide (p.length > best.1.length)
    · rw [if_pos hc]
      obtain ⟨-, hgt⟩ := Bool.and_eq_true_iff.mp hc
      have h1 : best.1.length ≤ p.length := le_of_lt (of_decide_eq_true hgt)
      exact le_trans h1 (by simpa using ih (p, some r))
    · rw [if_neg hc]; exact ih best

/-- Every matching pattern of the table is bounded by the final best
pattern length. -/
theorem bestWildcard_bound (id : String) :
    ∀ (table : List (String × PricingRule)) (best : String × Option PricingRule)
      (q : String) (s : PricingRule), (q, s) ∈ table → matchPath id q = true →
      q.length ≤ (bestWildcard id table best).1.length := by
  intro table
  induction table with
  | nil => intro best q s hq; cases hq
  | cons kr rest ih =>
    intro best q s hq hm
    obtain ⟨p, r⟩ := kr
    simp only [bestWildcard]
    rcases List.mem_cons.mp hq with hEq | hMem
    · injection hEq with hq1 hq2
      subst hq1
      by_cases hc : matchPath id q && decide (q.length > best.1.length)
      · rw [if_pos hc]
        simpa using bestWildcard_ge id rest (q, some r)
      · rw [if_neg hc]
        have : ¬ (q.length > best.1.length) := by
          intro hgt
          exact hc (by simp [hm, hgt])
        exact le_trans (by omega) (bestWildcard_ge id rest best)
    · exact ih _ q s hMem hm

/-- The wildcard fold returns its accumulator or a matching table
entry. -/
theorem bestWildcard_mem (id : String) :
    ∀ (table : List (String × PricingRule)) (best : String × Option PricingRule),
      bestWildcard id table best = best ∨
      ∃ p r, (p, r) ∈ table ∧ matchPath id p = true ∧
        bestWildcard id table best = (p, some r) := by
  intro table
  induction table with
  | nil => intro best; left; rfl
  | cons kr rest ih =>
    intro best
    obtain ⟨p, r⟩ := kr
    simp only [bestWildcard]
    by_cases hc : matchPath id p && decide (p.length > best.1.length)
    · rw [if_pos hc]
      rcases ih (p, some r) with h | ⟨p', r', hmem, hm, hres⟩
      · right
        exact ⟨p, r, List.mem_cons_self .., (Bool.and_eq_true_iff.mp hc).1, h⟩
      · right
        exact ⟨p', r', List.mem_cons_of_mem _ hmem, hm, hres⟩
    · rw [if_neg hc]
      rcases ih best with h | ⟨p', r', hmem, hm, hres⟩
      · left; exact h
      · right; exact ⟨p', r', List.mem_cons_of_mem _ hmem, hm, hres⟩

/-- With no matching pattern the wildcard fold is the identity. -/
theorem bestWildcard_nomatch (id : String) :
    ∀ (table : List (String × PricingRule)) (best : String × Option PricingRule),
      (∀ q s, (q, s) ∈ table → matchPath id q = false) →
      bestWildcard id table best = best := by
  intro table
  induction table with
  | nil => intro best _; rfl
  | cons kr rest ih =>
    intro best hno
    obtain ⟨p, r⟩ := kr
    simp only [bestWildcard]
    have hp : matchPath id p = false := hno p r (List.mem_cons_self ..)
    rw [if_neg (by simp [hp])]
    exact ih best fun q s hq => hno q s (List.mem_cons_of_mem _ hq)

/-- `sendPaymentRequiredHttp` always answers 402 without the handler. -/
theorem sendPaymentRequiredHttp_ne_settled (cfg : Config) (req : HttpRequest)
    (rule : PricingRule) (b : Bool) (pc : PaymentContext) (rc : PaymentResponse) :
    sendPaymentRequiredHttp cfg req rule ≠ .settled b pc rc := by
  unfold sendPaymentRequiredHttp
  split <;> simp

/-- `sendPaymentRequiredHttp` answers 402 without the handler. -/
theorem sendPaymentRequiredHttp_response (cfg : Config) (req : HttpRequest)
    (rule : PricingRule) :
    (sendPaymentRequiredHttp cfg req rule).handlerInvoked = false ∧
    (sendPaymentRequiredHttp cfg req rule).statusCode = some 402 := by
  unfold sendPaymentRequiredHttp
  split <;> exact ⟨rfl, rfl⟩

/-- If the V2 HTTP middleware invoked the handler on a priced request,
every pipeline stage succeeded. -/
theorem http_handler_stages {cfg : Config} {vb : VerifierBehavior} {req : HttpRequest}
    {rule : PricingRule}
    (hmatch : cfg.MatchEndpoint req.path = (some rule, true))
    (h : (PaymentMiddlewareStep cfg vb req).handlerInvoked = true) :
    detectCredential req ≠ .absent ∧
    ∃ payload v s,
      parseCredential (detectCredential req) (buildRequirementsFromRule rule) = .ok payload ∧
      vb.verify payload (buildRequirementsFromRule rule) = .ok v ∧ v.valid = true ∧
      vb.settle payload (buildRequirementsFromRule rule) = .ok s := by
  unfold PaymentMiddlewareStep at h
  split at h
  · rename_i rule' hmeq
    rw [hmatch] at hmeq
    injection hmeq with hmeq1 hmeq2
    injection hmeq1 with hrule
    subst hrule
    split at h
    · unfold sendPaymentRequiredHttp at h
      split at h <;> simp [HttpOutcome.handlerInvoked] at h
    · rename_i cr hne
      split at h
      · simp [HttpOutcome.handlerInvoked] at h
      · rename_i payload hp
        split at h
        · simp [HttpOutcome.handlerInvoked] at h
        · rename_i v hv
          split at h
          · rename_i hval
            unfold sendPaymentRequiredHttp at h
            split at h <;> simp [HttpOutcome.handlerInvoked] at h
          · rename_i hval
            split at h
            · simp [HttpOutcome.handlerInvoked] at h
            · rename_i s hs
              refine ⟨fun habs => hne habs, payload, v, s, hp, hv, ?_, hs⟩
              simpa using hval
  · rename_i hne
    exact absurd hmatch (by intro hc; exact hne rule hc)

/-- If the unary interceptor invoked the handler on a priced call,
every pipeline stage succeeded. -/
theorem unary_handler_stages {cfg : Config} {vb : VerifierBehavior}
    {handler : Except String Unit} {req : GrpcRequest} {rule : PricingRule}
    (hmatch : cfg.MatchMethod req.fullMethod = (some rule, true))
    (h : (UnaryServerInterceptorStep cfg vb handler req).handlerInvoked = true) :
    req.mdPresent = true ∧
    ∃ payload b r rest,
      ExtractPaymentFromMetadata req.md = (.ok payload, b) ∧
      BuildPaymentRequirements rule = r :: rest ∧
      ∃ v s, vb.verify payload (some r) = .ok v ∧ v.valid = true ∧
        vb.settle payload (some r) = .ok s := by
  unfold UnaryServerInterceptorStep at h
  split at h
  · rename_i rule' hmeq
    rw [hmatch] at hmeq
    injection hmeq with hmeq1 hmeq2
    injection hmeq1 with hrule
    subst hrule
    split at h
    · rename_i hmd
      simp [sendPaymentRequiredGrpc, GrpcOutcome.handlerInvoked] at h
    · rename_i hmd
      have hmd' : req.mdPresent = true := by simpa using hmd
      split at h
      · simp [sendPaymentRequiredGrpc, GrpcOutcome.handlerInvoked] at h
      · rename_i payload b hE
        split at h
        · simp [GrpcOutcome.handlerInvoked] at h
        · rename_i r rest hB
          split at h
          · simp [GrpcOutcome.handlerInvoked] at h
          · rename_i v hv
            split at h
            · simp [sendPaymentRequiredGrpc, GrpcOutcome.handlerInvoked] at h
            · rename_i hval
              split at h
              · simp [GrpcOutcome.handlerInvoked] at h
              · rename_i s hs
                exact ⟨hmd', payload, b, r, rest, hE, hB, v, s, hv, by simpa using hval, hs⟩
  · rename_i hne
    exact absurd hmatch (by intro hc; exact hne rule hc)

/-- If the stream interceptor invoked the handler on a priced call,
every pipeline stage succeeded. -/
theorem stream_handler_stages {cfg : Config} {vb : VerifierBehavior}
    {handler : Except String Unit} {req : GrpcRequest} {rule : PricingRule}
    (hmatch : cfg.MatchMethod req.fullMethod = (some rule, true))
    (h : (StreamServerInterceptorStep cfg vb handler req).handlerInvoked = true) :
    req.mdPresent = true ∧
    ∃ payload b r rest,
      ExtractPaymentFromMetadata req.md = (.ok payload, b) ∧
      BuildPaymentRequirements rule = r :: rest ∧
      ∃ v s, vb.verify payload (some r) = .ok v ∧ v.valid = true ∧
        vb.settle payload (some r) = .ok s := by
  unfold StreamServerInterceptorStep at h
  split at h
  · rename_i rule' hmeq
    rw [hmatch] at hmeq
    injection hmeq with hmeq1 hmeq2
    injection hmeq1 with hrule
    subst hrule
    split at h
    · rename_i hmd
      simp [sendPaymentRequiredGrpc, GrpcOutcome.handlerInvoked] at h
    · rename_i hmd
      have hmd' : req.mdPresent = true := by simpa using hmd
      split at h
      · simp [sendPaymentRequiredGrpc, GrpcOutcome.handlerInvoked] at h
      · rename_i payload b hE
        split at h
        · simp [GrpcOutcome.handlerInvoked] at h
        · rename_i r rest hB
          split at h
          · simp [GrpcOutcome.handlerInvoked] at h
          · rename_i v hv
            split at h
            · simp [sendPaymentRequiredGrpc, GrpcOutcome.handlerInvoked] at h
            · rename_i hval
              split at h
              · simp [GrpcOutcome.handlerInvoked] at h
              · rename_i s hs
                exact ⟨hmd', payload, b, r, rest, hE, hB, v, s, hv, by simpa using hval, hs⟩
  · rename_i hne
    exact absurd hmatch (by intro hc; exact hne rule hc)

/-- Inversion of the V2 HTTP middleware's `settled` outcome: the
version flag is the detected credential's and the injected context is
verified. -/
theorem http_settled_inversion {cfg : Config} {vb : VerifierBehavior} {req : HttpRequest}
    {b : Bool} {pc : PaymentContext} {rc : PaymentResponse}
    (h : PaymentMiddlewareStep cfg vb req = .settled b pc rc) :
    b = (detectCredential req).isV2 ∧ pc.verified = true := by
  unfold PaymentMiddlewareStep at h
  split at h
  · split at h
    · exact absurd h (sendPaymentRequiredHttp_ne_settled _ _ _ _ _ _)
    · split at h
      · cases h
      · split at h
        · cases h
        · split at h
          · exact absurd h (sendPaymentRequiredHttp_ne_settled _ _ _ _ _ _)
          · split at h
            · cases h
            · injection h with h1 h2 h3
              subst h2
              exact ⟨h1.symm, rfl⟩
  · cases h

/-- Inversion of the V1 middleware's `settled` outcome. -/
theorem legacy_settled_inversion {cfg : Config} {vb : LegacyVerifierBehavior}
    {req : LegacyHttpRequest} {pc : PaymentContext} {rc : LegacyPaymentResponse}
    (h : LegacyPaymentMiddlewareStep cfg vb req = .settled pc rc) :
    pc.verified = true := by
  unfold LegacyPaymentMiddlewareStep at h
  split at h
  · split at h
    · cases h
    · split at h
      · cases h
      · split at h
        · cases h
        · split at h
          · cases h
          · split at h
            · cases h
            · injection h with h1 h2
              subst h1
              rfl
  · cases h

/-- Inversion of the unary interceptor's `settledOk` outcome: the
version flag comes from the metadata extraction, the injected context
is verified, and the handler succeeded. -/
theorem unary_settledOk_inversion {cfg : Config} {vb : VerifierBehavior}
    {handler : Except String Unit} {req : GrpcRequest}
    {b : Bool} {pc : PaymentContext} {rc : PaymentResponse}
    (h : UnaryServerInterceptorStep cfg vb handler req = .settledOk b pc rc) :
    b = (ExtractPaymentFromMetadata req.md).2 ∧ pc.verified = true ∧ handler = .ok () := by
  unfold UnaryServerInterceptorStep at h
  split at h
  · split at h
    · simp [sendPaymentRequiredGrpc] at h
    · split at h
      · simp [sendPaymentRequiredGrpc] at h
      · rename_i hE
        split at h
        · cases h
        · split at h
          · cases h
          · split at h
            · simp [sendPaymentRequiredGrpc] at h
            · split at h
              · cases h
              · split at h
                · cases h
                · injection h with h1 h2 h3
                  subst h2
                  exact ⟨by rw [hE]; exact h1.symm, rfl, rfl⟩
  · cases h

/-- Inversion of the unary interceptor's `handlerFailed` outcome: the
injected context is verified and the handler's error is propagated. -/
theorem unary_handlerFailed_inversion {cfg : Config} {vb : VerifierBehavior}
    {handler : Except String Unit} {req : GrpcRequest}
    {pc : PaymentContext} {e : String}
    (h : UnaryServerInterceptorStep cfg vb handler req = .handlerFailed pc e) :
    pc.verified = true ∧ handler = .error e := by
  unfold UnaryServerInterceptorStep at h
  split at h
  · split at h
    · simp [sendPaymentRequiredGrpc] at h
    · split at h
      · simp [sendPaymentRequiredGrpc] at h
      · split at h
        · cases h
        · split at h
          · cases h
          · split at h
            · simp [sendPaymentRequiredGrpc] at h
            · split at h
              · cases h
              · split at h
                · injection h with h1 h2
                  subst h1
                  subst h2
                  exact ⟨rfl, rfl⟩
                · cases h
  · cases h

/-- Inversion of the stream interceptor's `settledOk` outcome. -/
theorem stream_settledOk_inversion {cfg : Config} {vb : VerifierBehavior}
    {handler : Except String Unit} {req : GrpcRequest}
    {b : Bool} {pc : PaymentContext} {rc : PaymentResponse}
    (h : StreamServerInterceptorStep cfg vb handler req = .settledOk b pc rc) :
    b = (ExtractPaymentFromMetadata req.md).2 ∧ pc.verified = true ∧ handler = .ok () := by
  unfold StreamServerInterceptorStep at h
  split at h
  · split at h
    · simp [sendPaymentRequiredGrpc] at h
    · split at h
      · simp [sendPaymentRequiredGrpc] at h
      · rename_i hE
        split at h
        · cases h
        · split at h
          · cases h
          · split at h
            · simp [sendPaymentRequiredGrpc] at h
            · split at h
              · cases h
              · split at h
                · cases h
                · injection h with h1 h2 h3
                  subst h2
                  exact ⟨by rw [hE]; exact h1.symm, rfl, rfl⟩
  · cases h

/-- Inversion of the stream interceptor's `handlerFailed` outcome. -/
theorem stream_handlerFailed_inversion {cfg : Config} {vb : VerifierBehavior}
    {handler : Except String Unit} {req : GrpcRequest}
    {pc : PaymentContext} {e : String}
    (h : StreamServerInterceptorStep cfg vb handler req = .handlerFailed pc e) :
    pc.verified = true ∧ handler = .error e := by
  unfold StreamServerInterceptorStep at h
  split at h
  · split at h
    · simp [sendPaymentRequiredGrpc] at h
    · split at h
      · simp [sendPaymentRequiredGrpc] at h
      · split at h
        · cases h
        · split at h
          · cases h
          · split at h
            · simp [sendPaymentRequiredGrpc] at h
            · split at h
              · cases h
              · split at h
                · injection h with h1 h2
                  subst h1
                  subst h2
                  exact ⟨rfl, rfl⟩
                · cases h
  · cases h

/-- The detected credential is V2 exactly when the V2 header is
present. -/
theorem detect_isV2 (req : HttpRequest) :
    (detectCredential req).isV2 = req.paymentSignature.isSome := by
  cases h : req.paymentSignature with
  | some w => simp [detectCredential, h, Credential.isV2]
  | none =>
    cases h2 : req.xPayment <;> simp [detectCredential, h, h2, Credential.isV2]

/-- The metadata extraction reports V2 exactly when the V2 key is
present. -/
theorem extract_isV2 (md : GrpcMetadata) :
    (ExtractPaymentFromMetadata md).2 = !md.paymentSignature.isEmpty := by
  cases h : md.paymentSignature with
  | cons w rest => simp [ExtractPaymentFromMetadata, h]
  | nil =>
    cases h2 : md.legacyPayment <;> simp [ExtractPaymentFromMetadata, h, h2]

/-! ## Claim theorems -/

/-- C2: an identifier matching at least one configured skip pattern
(exact, `/*`-wildcard, or glob — all three are `matchPath`) resolves
to "no payment required" `(none, false)` through `MatchEndpoint` and
`MatchMethod`, for every configuration — in particular even when the
identifier is an exact key of the pricing table, since the skip check
precedes any rule lookup. -/
theorem skip_patterns_take_precedence (c : Config) (id : String) :
    ((∃ sp ∈ c.skipPaths, matchPath id sp = true) → c.MatchEndpoint id = (none, false))
    ∧ ((∃ sm ∈ c.skipMethods, matchPath id sm = true) → c.MatchMethod id = (none, false)) := by
  constructor
  · intro hskip
    have hany : (c.skipPaths.any fun skipPath => matchPath id skipPath) = true :=
      List.any_eq_true.mpr (by simpa using hskip)
    simp [Config.MatchEndpoint, hany]
  · intro hskip
    have hany : (c.skipMethods.any fun skipMethod => matchPath id skipMethod) = true :=
      List.any_eq_true.mpr (by simpa using hskip)
    simp [Config.MatchMethod, hany]

/-- Witness for C2: `/health` is skipped by `cfgSkipEx` although it is
also an exact key of the pricing table. -/
theorem skip_patterns_take_precedence_witness :
    (Config.mk [("/health", ruleEx), ("/*", ruleEx)] [("/pkg.Svc/Health", ruleEx)] none 300
        ["/health"] ["/pkg.Svc/Health"] "").MatchEndpoint "/health" = (none, false) :=
  (skip_patterns_take_precedence _ "/health").1
    ⟨"/health", by decide, by decide⟩

/-- C5: for an identifier that is neither skipped nor an exact key,
`MatchEndpoint` (and `MatchMethod`) returns the rule of a matching
wildcard pattern of maximal string length when one or more patterns
match, and otherwise the default rule when configured, else
`(none, false)`. -/
theorem wildcard_longest_pattern_and_default (c : Config) (id : String) :
    ((c.skipPaths.any fun sp => matchPath id sp) = false →
      lookupRule c.endpointPricing id = none →
      (((∃ q s, (q, s) ∈ c.endpointPricing ∧ matchPath id q = true) →
        ∃ p r, (p, r) ∈ c.endpointPricing ∧ matchPath id p = true ∧
          (∀ q s, (q, s) ∈ c.endpointPricing → matchPath id q = true → q.length ≤ p.length) ∧
          c.MatchEndpoint id = (some r, true))
       ∧ ((∀ q s, (q, s) ∈ c.endpointPricing → matchPath id q = false) →
          c.MatchEndpoint id =
            (match c.defaultPricing with
             | some d => (some d, true)
             | none => (none, false)))))
    ∧ ((c.skipMethods.any fun sm => matchPath id sm) = false →
      lookupRule c.methodPricing id = none →
      (((∃ q s, (q, s) ∈ c.methodPricing ∧ matchPath id q = true) →
        ∃ p r, (p, r) ∈ c.methodPricing ∧ matchPath id p = true ∧
          (∀ q s, (q, s) ∈ c.methodPricing → matchPath id q = true → q.length ≤ p.length) ∧
          c.MatchMethod id = (some r, true))
       ∧ ((∀ q s, (q, s) ∈ c.methodPricing → matchPath id q = false) →
          c.MatchMethod id =
            (match c.defaultPricing with
             | some d => (some d, true)
             | none => (none, false))))) := by
  constructor
  · intro hskip hexact
    constructor
    · rintro ⟨q, s, hqmem, hqmatch⟩
      rcases bestWildcard_mem id c.endpointPricing ("", none) with hacc | ⟨p, r, hmem, hm, hres⟩
      · exfalso
        have hbound := bestWildcard_bound id c.endpointPricing ("", none) q s hqmem hqmatch
        rw [hacc] at hbound
        have hq0 : q = "" := string_length_zero (Nat.le_zero.mp hbound)
        subst hq0
        exact lookupRule_none hexact s (matchPath_empty_pattern hqmatch ▸ hqmem)
      · refine ⟨p, r, hmem, hm, ?_, ?_⟩
        · intro q' s' hq'mem hq'match
          have := bestWildcard_bound id c.endpointPricing ("", none) q' s' hq'mem hq'match
          rwa [hres] at this
        · simp [Config.MatchEndpoint, hskip, hexact, hres]
    · intro hnone
      have hacc := bestWildcard_nomatch id c.endpointPricing ("", none) hnone
      simp only [Config.MatchEndpoint, hskip, hexact, hacc]
      rfl
  · intro hskip hexact
    constructor
    · rintro ⟨q, s, hqmem, hqmatch⟩
      rcases bestWildcard_mem id c.methodPricing ("", none) with hacc | ⟨p, r, hmem, hm, hres⟩
      · exfalso
        have hbound := bestWildcard_bound id c.methodPricing ("", none) q s hqmem hqmatch
        rw [hacc] at hbound
        have hq0 : q = "" := string_length_zero (Nat.le_zero.mp hbound)
        subst hq0
        exact lookupRule_none hexact s (matchPath_empty_pattern hqmatch ▸ hqmem)
      · refine ⟨p, r, hmem, hm, ?_, ?_⟩
        · intro q' s' hq'mem hq'match
          have := bestWildcard_bound id c.methodPricing ("", none) q' s' hq'mem hq'match
          rwa [hres] at this
        · simp [Config.MatchMethod, hskip, hexact, hres]
    · intro hnone
      have hacc := bestWildcard_nomatch id c.methodPricing ("", none) hnone
      simp only [Config.MatchMethod, hskip, hexact, hacc]
      rfl

/-- Witness for C5: `/v1/premium/content` matches both `/v1/*` and the
longer `/v1/premium/*` in `cfgEx` and resolves to the latter's rule. -/
theorem wildcard_longest_pattern_and_default_witness :
    ∃ p r, (p, r) ∈ cfgEx.endpointPricing ∧ matchPath "/v1/premium/content" p = true ∧
      (∀ q s, (q, s) ∈ cfgEx.endpointPricing →
        matchPath "/v1/premium/content" q = true → q.length ≤ p.length) ∧
      cfgEx.MatchEndpoint "/v1/premium/content" = (some r, true) :=
  ((wildcard_longest_pattern_and_default cfgEx "/v1/premium/content").1
      (by decide) (by decide)).1
    ⟨"/v1/*", ruleEx, by decide, by decide⟩

/-- C3: a request carrying the V2 credential key is always treated as
V2 — the HTTP middleware detects it as a V2 credential and dispatches
to `parsePaymentPayload`, and the gRPC extractor returns the
`DecodePaymentPayload` result with `isV2 = true` — regardless of any
V1 credential also present on the same request. -/
theorem v2_key_takes_precedence :
    (∀ (req : HttpRequest) (w : Wire PaymentPayload) (requirements : Option PaymentRequirements),
      req.paymentSignature = some w →
      detectCredential req = .v2 w ∧
      parseCredential (detectCredential req) requirements = parsePaymentPayload w)
    ∧ (∀ (md : GrpcMetadata) (w : Wire PaymentPayload) (rest : List (Wire PaymentPayload)),
      md.paymentSignature = w :: rest →
      ExtractPaymentFromMetadata md = (DecodePaymentPayload w, true)) := by
  constructor
  · intro req w requirements h
    have hdet : detectCredential req = .v2 w := by
      unfold detectCredential
      rw [h]
    exact ⟨hdet, by rw [hdet]; rfl⟩
  · intro md w rest h
    unfold ExtractPaymentFromMetadata
    rw [h]

/-- Witness for C3: a request and metadata carrying both the V2 and
the V1 keys are decoded with the V2 decoder. -/
theorem v2_key_takes_precedence_witness :
    (detectCredential reqBothKeys = .v2 (.parsed payloadEx) ∧
      parseCredential (detectCredential reqBothKeys) (buildRequirementsFromRule ruleEx) =
        parsePaymentPayload (.parsed payloadEx)) ∧
    ExtractPaymentFromMetadata
        { paymentSignature := [.parsed payloadEx], legacyPayment := [.parsed legacyEx] } =
      (DecodePaymentPayload (.parsed payloadEx), true) :=
  ⟨v2_key_takes_precedence.1 reqBothKeys (.parsed payloadEx)
      (buildRequirementsFromRule ruleEx) (by decide),
   v2_key_takes_precedence.2
      { paymentSignature := [.parsed payloadEx], legacyPayment := [.parsed legacyEx] }
      (.parsed payloadEx) [] rfl⟩

/-- C6 counterexample: a V2 credential declaring `x402Version = 1`
with the scheme payload present is rejected by the HTTP decoder
`parsePaymentPayload` but accepted by the gRPC decoder
`DecodePaymentPayload`, so the claim that decoding fails on a declared
version below 2 on both transports is false. -/
theorem grpc_decoder_accepts_low_version :
    payloadLowVersion.x402Version < 2 ∧
    parsePaymentPayload (.parsed payloadLowVersion) =
      .error "PAYMENT-SIGNATURE header requires x402Version >= 2" ∧
    DecodePaymentPayload (.parsed payloadLowVersion) = .ok payloadLowVersion :=
  ⟨by decide, by decide, by decide⟩

/-- C6 amended: the HTTP decoder `parsePaymentPayload` fails exactly
when the value is syntactically malformed, declares a version below 2,
or lacks the scheme-specific payload; the gRPC decoder
`DecodePaymentPayload` fails exactly when the value is malformed or
lacks the scheme-specific payload — it performs no version check. -/
theorem v2_decode_failure_conditions (w : Wire PaymentPayload) :
    ((∃ e, parsePaymentPayload w = .error e) ↔
      (w = .malformed ∨ ∃ p, w = .parsed p ∧ (p.x402Version < 2 ∨ p.payload = none)))
    ∧ ((∃ e, DecodePaymentPayload w = .error e) ↔
      (w = .malformed ∨ ∃ p, w = .parsed p ∧ p.payload = none)) := by
  constructor
  · cases w with
    | malformed => simp [parsePaymentPayload]
    | parsed p =>
      simp only [parsePaymentPayload]
      by_cases hv : p.x402Version < 2
      · simp [hv]
      · cases hp : p.payload <;> simp [hv, hp]
  · cases w with
    | malformed => simp [DecodePaymentPayload]
    | parsed p =>
      cases hp : p.payload <;> simp [DecodePaymentPayload, hp]

/-- C7: on a priced request, a present credential that fails
structural decode gets HTTP status 400 from the HTTP middleware, while
both gRPC interceptors treat the failure exactly like a missing
credential: the same `RESOURCE_EXHAUSTED` payment-required status
carrying the encoded requirements, not `INVALID_ARGUMENT`. -/
theorem decode_failure_status_divergence (cfg : Config) (vb : VerifierBehavior)
    (rule : PricingRule) :
    (∀ (req : HttpRequest) (e : String),
      cfg.MatchEndpoint req.path = (some rule, true) →
      detectCredential req ≠ .absent →
      parseCredential (detectCredential req) (buildRequirementsFromRule rule) = .error e →
      PaymentMiddlewareStep cfg vb req = .clientError ("Invalid payment header: " ++ e) ∧
      (PaymentMiddlewareStep cfg vb req).statusCode = some 400)
    ∧ (∀ (handler : Except String Unit) (req : GrpcRequest) (e : String),
      cfg.MatchMethod req.fullMethod = (some rule, true) →
      req.mdPresent = true →
      (ExtractPaymentFromMetadata req.md).1 = .error e →
      UnaryServerInterceptorStep cfg vb handler req = sendPaymentRequiredGrpc rule ∧
      StreamServerInterceptorStep cfg vb handler req = sendPaymentRequiredGrpc rule)
    ∧ (∀ (handler : Except String Unit) (req : GrpcRequest),
      cfg.MatchMethod req.fullMethod = (some rule, true) →
      req.mdPresent = true →
      req.md.paymentSignature = [] → req.md.legacyPayment = [] →
      UnaryServerInterceptorStep cfg vb handler req = sendPaymentRequiredGrpc rule ∧
      StreamServerInterceptorStep cfg vb handler req = sendPaymentRequiredGrpc rule) := by
  refine ⟨?_, ?_, ?_⟩
  · intro req e hmatch hcred hparse
    have hstep : PaymentMiddlewareStep cfg vb req =
        .clientError ("Invalid payment header: " ++ e) := by
      unfold PaymentMiddlewareStep
      rw [hmatch]
      cases hdet : detectCredential req with
      | absent => exact absurd hdet hcred
      | v2 w =>
        rw [hdet] at hparse
        simp only [hparse]
      | legacy w =>
        rw [hdet] at hparse
        simp only [hparse]
    exact ⟨hstep, by rw [hstep]; rfl⟩
  · intro handler req e hmatch hmd hextract
    rcases hE : ExtractPaymentFromMetadata req.md with ⟨exc, b⟩
    rw [hE] at hextract
    simp only at hextract
    subst hextract
    constructor
    · unfold UnaryServerInterceptorStep
      rw [hmatch, hmd, hE]
      rfl
    · unfold StreamServerInterceptorStep
      rw [hmatch, hmd, hE]
      rfl
  · intro handler req hmatch hmd hsig hleg
    have hE : ExtractPaymentFromMetadata req.md =
        (.error "no payment found in metadata", false) := by
      unfold ExtractPaymentFromMetadata
      rw [hsig, hleg]
    constructor
    · unfold UnaryServerInterceptorStep
      rw [hmatch, hmd, hE]
      rfl
    · unfold StreamServerInterceptorStep
      rw [hmatch, hmd, hE]
      rfl

/-- A unary trailer is only ever set on the `settledOk` path, whose
handler succeeded. -/
theorem unary_trailer_some {cfg : Config} {vb : VerifierBehavior}
    {handler : Except String Unit} {req : GrpcRequest} {x : String × PaymentResponse}
    (h : (UnaryServerInterceptorStep cfg vb handler req).trailer = some x) :
    handler = .ok () := by
  cases hout : UnaryServerInterceptorStep cfg vb handler req with
  | settledOk b pc rc => exact (unary_settledOk_inversion hout).2.2
  | passThrough => rw [hout] at h; cases h
  | paymentRequiredStatus body => rw [hout] at h; cases h
  | internalStatus m => rw [hout] at h; cases h
  | unavailableStatus m => rw [hout] at h; cases h
  | handlerFailed pc e => rw [hout] at h; cases h

/-- A stream trailer is only ever set on the `settledOk` path, whose
handler succeeded. -/
theorem stream_trailer_some {cfg : Config} {vb : VerifierBehavior}
    {handler : Except String Unit} {req : GrpcRequest} {x : String × PaymentResponse}
    (h : (StreamServerInterceptorStep cfg vb handler req).trailer = some x) :
    handler = .ok () := by
  cases hout : StreamServerInterceptorStep cfg vb handler req with
  | settledOk b pc rc => exact (stream_settledOk_inversion hout).2.2
  | passThrough => rw [hout] at h; cases h
  | paymentRequiredStatus body => rw [hout] at h; cases h
  | internalStatus m => rw [hout] at h; cases h
  | unavailableStatus m => rw [hout] at h; cases h
  | handlerFailed pc e => rw [hout] at h; cases h

/-- C4: a settlement receipt is always emitted under the response key
of the same protocol version as the inbound credential.  On HTTP, a
receipt header on a request with the V2 key present is
`PAYMENT-RESPONSE` and never `X-PAYMENT-RESPONSE`; without the V2 key
it is `X-PAYMENT-RESPONSE` and never `PAYMENT-RESPONSE`.  On gRPC
(unary and stream), the trailer key is `payment-response` exactly when
the `payment-signature` metadata key carried the credential, and
`x402-payment-response` otherwise. -/
theorem version_symmetric_receipt_key :
    (∀ (cfg : Config) (vb : VerifierBehavior) (req : HttpRequest) (k : String),
      (PaymentMiddlewareStep cfg vb req).receiptHeaderKey = some k →
      ((∃ w, req.paymentSignature = some w) → k = "PAYMENT-RESPONSE") ∧
      (req.paymentSignature = none → k = "X-PAYMENT-RESPONSE"))
    ∧ (∀ (cfg : Config) (vb : VerifierBehavior) (handler : Except String Unit)
        (req : GrpcRequest) (k : String) (rc : PaymentResponse),
      (UnaryServerInterceptorStep cfg vb handler req).trailer = some (k, rc) →
      ((∃ w rest, req.md.paymentSignature = w :: rest) → k = "payment-response") ∧
      (req.md.paymentSignature = [] → k = "x402-payment-response"))
    ∧ (∀ (cfg : Config) (vb : VerifierBehavior) (handler : Except String Unit)
        (req : GrpcRequest) (k : String) (rc : PaymentResponse),
      (StreamServerInterceptorStep cfg vb handler req).trailer = some (k, rc) →
      ((∃ w rest, req.md.paymentSignature = w :: rest) → k = "payment-response") ∧
      (req.md.paymentSignature = [] → k = "x402-payment-response")) := by
  refine ⟨?_, ?_, ?_⟩
  · intro cfg vb req k hk
    cases hout : PaymentMiddlewareStep cfg vb req with
    | settled b pc rc =>
      obtain ⟨hb, -⟩ := http_settled_inversion hout
      rw [detect_isV2] at hb
      rw [hout] at hk
      cases hsig : req.paymentSignature with
      | some w =>
        rw [hsig] at hb
        simp only [Option.isSome_some] at hb
        subst hb
        simp only [HttpOutcome.receiptHeaderKey, Option.some.injEq] at hk
        exact ⟨fun _ => hk.symm, fun hnone => nomatch hnone⟩
      | none =>
        rw [hsig] at hb
        simp only [Option.isSome_none] at hb
        subst hb
        simp only [HttpOutcome.receiptHeaderKey, Option.some.injEq] at hk
        refine ⟨fun hw => ?_, fun _ => hk.symm⟩
        obtain ⟨w, hw⟩ := hw
        cases hw
    | paymentRequired html body => rw [hout] at hk; cases hk
    | passThrough => rw [hout] at hk; cases hk
    | clientError m => rw [hout] at hk; cases hk
    | serverError m => rw [hout] at hk; cases hk
  · intro cfg vb handler req k rc hk
    cases hout : UnaryServerInterceptorStep cfg vb handler req with
    | settledOk b pc rc' =>
      obtain ⟨hb, -, -⟩ := unary_settledOk_inversion hout
      rw [extract_isV2] at hb
      rw [hout] at hk
      cases hsig : req.md.paymentSignature with
      | cons w rest =>
        rw [hsig] at hb
        simp only [List.isEmpty_cons, Bool.not_false] at hb
        subst hb
        simp only [GrpcOutcome.trailer, Option.some.injEq, Prod.mk.injEq] at hk
        exact ⟨fun _ => hk.1.symm, fun hnil => nomatch hnil⟩
      | nil =>
        rw [hsig] at hb
        simp only [List.isEmpty_nil, Bool.not_true] at hb
        subst hb
        simp only [GrpcOutcome.trailer, Option.some.injEq, Prod.mk.injEq] at hk
        refine ⟨fun hw => ?_, fun _ => hk.1.symm⟩
        obtain ⟨w, rest, hw⟩ := hw
        cases hw
    | passThrough => rw [hout] at hk; cases hk
    | paymentRequiredStatus body => rw [hout] at hk; cases hk
    | internalStatus m => rw [hout] at hk; cases hk
    | unavailableStatus m => rw [hout] at hk; cases hk
    | handlerFailed pc e => rw [hout] at hk; cases hk
  · intro cfg vb handler req k rc hk
    cases hout : StreamServerInterceptorStep cfg vb handler req with
    | settledOk b pc rc' =>
      obtain ⟨hb, -, -⟩ := stream_settledOk_inversion hout
      rw [extract_isV2] at hb
      rw [hout] at hk
      cases hsig : req.md.paymentSignature with
      | cons w rest =>
        rw [hsig] at hb
        simp only [List.isEmpty_cons, Bool.not_false] at hb
        subst hb
        simp only [GrpcOutcome.trailer, Option.some.injEq, Prod.mk.injEq] at hk
        exact ⟨fun _ => hk.1.symm, fun hnil => nomatch hnil⟩
      | nil =>
        rw [hsig] at hb
        simp only [List.isEmpty_nil, Bool.not_true] at hb
        subst hb
        simp only [GrpcOutcome.trailer, Option.some.injEq, Prod.mk.injEq] at hk
        refine ⟨fun hw => ?_, fun _ => hk.1.symm⟩
        obtain ⟨w, rest, hw⟩ := hw
        cases hw
    | passThrough => rw [hout] at hk; cases hk
    | paymentRequiredStatus body => rw [hout] at hk; cases hk
    | internalStatus m => rw [hout] at hk; cases hk
    | unavailableStatus m => rw [hout] at hk; cases hk
    | handlerFailed pc e => rw [hout] at hk; cases hk

/-- Witness for C4: the V1-only request settles onto
`X-PAYMENT-RESPONSE` (HTTP) and `x402-payment-response` (gRPC
trailer). -/
theorem version_symmetric_receipt_key_witness :
    ((∃ w, reqV1Only.paymentSignature = some w) → "X-PAYMENT-RESPONSE" = "PAYMENT-RESPONSE") ∧
    (reqV1Only.paymentSignature = none → "X-PAYMENT-RESPONSE" = "X-PAYMENT-RESPONSE") :=
  version_symmetric_receipt_key.1 cfgEx vbOk reqV1Only "X-PAYMENT-RESPONSE" (by decide)

/-- C8: on both gRPC interceptors the settlement-receipt trailer is
attached only when the wrapped handler itself succeeded — a handler
error after successful settlement propagates with no trailer; on the
settled HTTP path, the handler is invoked and the receipt header is
set (Go HTTP handlers have no error return, so the handler-error
clause has no HTTP instance). -/
theorem settlement_receipt_requires_handler_success :
    (∀ (cfg : Config) (vb : VerifierBehavior) (handler : Except String Unit)
        (req : GrpcRequest) (e : String), handler = .error e →
      (UnaryServerInterceptorStep cfg vb handler req).trailer = none ∧
      (StreamServerInterceptorStep cfg vb handler req).trailer = none)
    ∧ (∀ (cfg : Config) (vb : VerifierBehavior) (handler : Except String Unit)
        (req : GrpcRequest) (x : String × PaymentResponse),
      (UnaryServerInterceptorStep cfg vb handler req).trailer = some x → handler = .ok ())
    ∧ (∀ (cfg : Config) (vb : VerifierBehavior) (handler : Except String Unit)
        (req : GrpcRequest) (x : String × PaymentResponse),
      (StreamServerInterceptorStep cfg vb handler req).trailer = some x → handler = .ok ())
    ∧ (∀ (cfg : Config) (vb : VerifierBehavior) (req : HttpRequest) (b : Bool)
        (pc : PaymentContext) (rc : PaymentResponse),
      PaymentMiddlewareStep cfg vb req = .settled b pc rc →
      (PaymentMiddlewareStep cfg vb req).handlerInvoked = true ∧
      (PaymentMiddlewareStep cfg vb req).receiptHeaderKey.isSome = true) := by
  refine ⟨?_, fun _ _ _ _ _ h => unary_trailer_some h,
         fun _ _ _ _ _ h => stream_trailer_some h, ?_⟩
  · intro cfg vb handler req e he
    constructor
    · cases htr : (UnaryServerInterceptorStep cfg vb handler req).trailer with
      | none => rfl
      | some x =>
        have := unary_trailer_some htr
        rw [he] at this
        cases this
    · cases htr : (StreamServerInterceptorStep cfg vb handler req).trailer with
      | none => rfl
      | some x =>
        have := stream_trailer_some htr
        rw [he] at this
        cases this
  · intro cfg vb req b pc rc hout
    rw [hout]
    cases b <;> exact ⟨rfl, rfl⟩

/-- Witness for C8: with a failing handler, the unary and stream
interceptors attach no trailer even though settlement succeeded. -/
theorem settlement_receipt_requires_handler_success_witness :
    (UnaryServerInterceptorStep cfgEx vbOk (.error "boom") grpcReqV2).trailer = none ∧
    (StreamServerInterceptorStep cfgEx vbOk (.error "boom") grpcReqV2).trailer = none :=
  settlement_receipt_requires_handler_success.1 cfgEx vbOk (.error "boom") grpcReqV2 "boom" rfl

/-- Witness for C7: `cfgEx` with a malformed V2 credential — 400 on
HTTP, and on gRPC the same payment-required status as with no
credential at all. -/
theorem decode_failure_status_divergence_witness :
    (PaymentMiddlewareStep cfgEx vbOk reqBadCred =
        .clientError "Invalid payment header: failed to decode base64 or parse JSON" ∧
      (PaymentMiddlewareStep cfgEx vbOk reqBadCred).statusCode = some 400) ∧
    (UnaryServerInterceptorStep cfgEx vbOk (.ok ()) grpcReqBad = sendPaymentRequiredGrpc ruleEx ∧
      StreamServerInterceptorStep cfgEx vbOk (.ok ()) grpcReqBad = sendPaymentRequiredGrpc ruleEx) ∧
    (UnaryServerInterceptorStep cfgEx vbOk (.ok ()) grpcReqNoCred = sendPaymentRequiredGrpc ruleEx ∧
      StreamServerInterceptorStep cfgEx vbOk (.ok ()) grpcReqNoCred =
        sendPaymentRequiredGrpc ruleEx) :=
  ⟨by
      have h := (decode_failure_status_divergence cfgEx vbOk ruleEx).1 reqBadCred
        "failed to decode base64 or parse JSON" (by decide) (by decide) (by decide)
      simpa using h,
   (decode_failure_status_divergence cfgEx vbOk ruleEx).2.1 (.ok ()) grpcReqBad
      "failed to decode base64 or unmarshal JSON" (by decide) (by decide) (by decide),
   (decode_failure_status_divergence cfgEx vbOk ruleEx).2.2 (.ok ()) grpcReqNoCred
      (by decide) (by decide) (by decide) (by decide)⟩

/-- C9 counterexample: `WithPaymentMetadata` emits no pair for
`SettledAt`, so reading back a verified context with a non-zero
settlement time does not yield the same facts in every field — the
reconstructed context carries the zero time instead. -/
theorem settledAt_lost_in_metadata_roundtrip :
    pcEx.verified = true ∧ pcEx.settledAt = 5 ∧
    (GetPaymentFromGRPCContext true (withPaymentMetadataPairs (some pcEx))).1 ≠ some pcEx ∧
    (GetPaymentFromGRPCContext true (withPaymentMetadataPairs (some pcEx))).1 =
      some { pcEx with settledAt := 0 } :=
  ⟨by decide, by decide, by decide, by decide⟩

/-- C9 amended: for a verified `PaymentContext`, reading the metadata
emitted by `WithPaymentMetadata` back through
`GetPaymentFromGRPCContext` yields a found context with the same
verified flag, payer address, amount, token symbol, network and
transaction hash, but with the settlement time reset to the zero time
(it is not propagated); for a missing or unverified context no payment
metadata pairs are emitted, and on empty metadata
`GetPaymentFromGRPCContext` reports not-found. -/
theorem payment_metadata_roundtrip (pc : PaymentContext) (mdPresent : Bool) :
    (pc.verified = true →
      GetPaymentFromGRPCContext true (withPaymentMetadataPairs (some pc)) =
        (some { verified := true, payerAddress := pc.payerAddress, amount := pc.amount,
                tokenSymbol := pc.tokenSymbol, network := pc.network,
                transactionHash := pc.transactionHash, settledAt := 0 }, true))
    ∧ (pc.verified = false → withPaymentMetadataPairs (some pc) = [])
    ∧ withPaymentMetadataPairs none = []
    ∧ GetPaymentFromGRPCContext mdPresent [] = (none, false) := by
  refine ⟨?_, ?_, rfl, ?_⟩
  · intro hv
    by_cases ht : pc.tokenSymbol = "" <;> by_cases hx : pc.transactionHash = "" <;>
      simp [withPaymentMetadataPairs, GetPaymentFromGRPCContext, GetPaymentFromContext,
            mdGet, hv, ht, hx, List.filter]
  · intro hv
    simp [withPaymentMetadataPairs, GetPaymentFromContext, hv]
  · cases mdPresent <;> simp [GetPaymentFromGRPCContext, mdGet]

/-- Witness for C9 (amended): the round trip at `pcEx` preserves every
field except the settlement time. -/
theorem payment_metadata_roundtrip_witness :
    GetPaymentFromGRPCContext true (withPaymentMetadataPairs (some pcEx)) =
      (some { verified := true, payerAddress := pcEx.payerAddress, amount := pcEx.amount,
              tokenSymbol := pcEx.tokenSymbol, network := pcEx.network,
              transactionHash := pcEx.transactionHash, settledAt := 0 }, true) :=
  (payment_metadata_roundtrip pcEx true).1 (by decide)

/-- C10: every `PaymentContext` the core injects — V2 HTTP middleware,
V1 HTTP middleware, unary and stream gRPC interceptors — has
`Verified = true`; consequently `GetPaymentFromContext` finds it, and
`RequirePayment` returns it rather than any error (in particular never
the "payment not verified" error) for a core-injected context. -/
theorem injected_payment_contexts_verified :
    (∀ (cfg : Config) (vb : VerifierBehavior) (req : HttpRequest) (pc : PaymentContext),
      (PaymentMiddlewareStep cfg vb req).injectedPayment = some pc →
      pc.verified = true ∧ GetPaymentFromContext (some pc) = (some pc, true) ∧
      RequirePayment (some pc) = .ok pc)
    ∧ (∀ (cfg : Config) (vb : LegacyVerifierBehavior) (req : LegacyHttpRequest)
        (pc : PaymentContext),
      (LegacyPaymentMiddlewareStep cfg vb req).injectedPayment = some pc →
      pc.verified = true ∧ GetPaymentFromContext (some pc) = (some pc, true) ∧
      RequirePayment (some pc) = .ok pc)
    ∧ (∀ (cfg : Config) (vb : VerifierBehavior) (handler : Except String Unit)
        (req : GrpcRequest) (pc : PaymentContext),
      (UnaryServerInterceptorStep cfg vb handler req).injectedPayment = some pc →
      pc.verified = true ∧ GetPaymentFromContext (some pc) = (some pc, true) ∧
      RequirePayment (some pc) = .ok pc)
    ∧ (∀ (cfg : Config) (vb : VerifierBehavior) (handler : Except String Unit)
        (req : GrpcRequest) (pc : PaymentContext),
      (StreamServerInterceptorStep cfg vb handler req).injectedPayment = some pc →
      pc.verified = true ∧ GetPaymentFromContext (some pc) = (some pc, true) ∧
      RequirePayment (some pc) = .ok pc) := by
  have final : ∀ pc : PaymentContext, pc.verified = true →
      pc.verified = true ∧ GetPaymentFromContext (some pc) = (some pc, true) ∧
      RequirePayment (some pc) = .ok pc := by
    intro pc hv
    exact ⟨hv, rfl, by simp [RequirePayment, GetPaymentFromContext, hv]⟩
  refine ⟨?_, ?_, ?_, ?_⟩
  · intro cfg vb req pc hinj
    cases hout : PaymentMiddlewareStep cfg vb req with
    | settled b pc' rc =>
      rw [hout] at hinj
      injection hinj with hpc
      subst hpc
      exact final _ (http_settled_inversion hout).2
    | paymentRequired html body => rw [hout] at hinj; cases hinj
    | passThrough => rw [hout] at hinj; cases hinj
    | clientError m => rw [hout] at hinj; cases hinj
    | serverError m => rw [hout] at hinj; cases hinj
  · intro cfg vb req pc hinj
    cases hout : LegacyPaymentMiddlewareStep cfg vb req with
    | settled pc' rc =>
      rw [hout] at hinj
      injection hinj with hpc
      subst hpc
      exact final _ (legacy_settled_inversion hout)
    | paymentRequired html => rw [hout] at hinj; cases hinj
    | passThrough => rw [hout] at hinj; cases hinj
    | clientError m => rw [hout] at hinj; cases hinj
    | serverError m => rw [hout] at hinj; cases hinj
  · intro cfg vb handler req pc hinj
    cases hout : UnaryServerInterceptorStep cfg vb handler req with
    | settledOk b pc' rc =>
      rw [hout] at hinj
      injection hinj with hpc
      subst hpc
      exact final _ (unary_settledOk_inversion hout).2.1
    | handlerFailed pc' e =>
      rw [hout] at hinj
      injection hinj with hpc
      subst hpc
      exact final _ (unary_handlerFailed_inversion hout).1
    | passThrough => rw [hout] at hinj; cases hinj
    | paymentRequiredStatus body => rw [hout] at hinj; cases hinj
    | internalStatus m => rw [hout] at hinj; cases hinj
    | unavailableStatus m => rw [hout] at hinj; cases hinj
  · intro cfg vb handler req pc hinj
    cases hout : StreamServerInterceptorStep cfg vb handler req with
    | settledOk b pc' rc =>
      rw [hout] at hinj
      injection hinj with hpc
      subst hpc
      exact final _ (stream_settledOk_inversion hout).2.1
    | handlerFailed pc' e =>
      rw [hout] at hinj
      injection hinj with hpc
      subst hpc
      exact final _ (stream_handlerFailed_inversion hout).1
    | passThrough => rw [hout] at hinj; cases hinj
    | paymentRequiredStatus body => rw [hout] at hinj; cases hinj
    | internalStatus m => rw [hout] at hinj; cases hinj
    | unavailableStatus m => rw [hout] at hinj; cases hinj

/-- Witness for C10: the context injected by the settled V2 HTTP
request is verified and accepted by `RequirePayment`. -/
theorem injected_payment_contexts_verified_witness :
    (PaymentMiddlewareStep cfgEx vbOk reqBothKeys).injectedPayment = some
      { verified := true, payerAddress := "0xp", amount := "1000000", tokenSymbol := "USDC",
        network := "eip155:84532", transactionHash := "0xtx", settledAt := 7 } ∧
    ({ verified := true, payerAddress := "0xp", amount := "1000000", tokenSymbol := "USDC",
       network := "eip155:84532", transactionHash := "0xtx",
       settledAt := 7 } : PaymentContext).verified = true ∧
    RequirePayment (some
      { verified := true, payerAddress := "0xp", amount := "1000000", tokenSymbol := "USDC",
        network := "eip155:84532", transactionHash := "0xtx", settledAt := 7 }) = .ok
      { verified := true, payerAddress := "0xp", amount := "1000000", tokenSymbol := "USDC",
        network := "eip155:84532", transactionHash := "0xtx", settledAt := 7 } :=
  ⟨by decide,
   (injected_payment_contexts_verified.1 cfgEx vbOk reqBothKeys _ (by decide)).1,
   (injected_payment_contexts_verified.1 cfgEx vbOk reqBothKeys _ (by decide)).2.2⟩

/-- C1: on every transport (HTTP middleware, unary and stream gRPC
interceptors), whenever a priced request's processing fails at any
stage before settlement succeeds — no credential, structural decode
failure, verifier `valid = false`, verifier error, or settlement
error — the wrapped handler is never invoked, and the middleware
answers with the transport's error/status response instead. -/
theorem failed_pipeline_never_invokes_handler (cfg : Config) (vb : VerifierBehavior)
    (rule : PricingRule) :
    (∀ req : HttpRequest, cfg.MatchEndpoint req.path = (some rule, true) →
      httpStageFailure vb req rule →
      (PaymentMiddlewareStep cfg vb req).handlerInvoked = false ∧
      (PaymentMiddlewareStep cfg vb req).statusCode.isSome = true)
    ∧ (∀ (handler : Except String Unit) (req : GrpcRequest),
      cfg.MatchMethod req.fullMethod = (some rule, true) →
      grpcStageFailure vb req rule →
      (UnaryServerInterceptorStep cfg vb handler req).handlerInvoked = false ∧
      (UnaryServerInterceptorStep cfg vb handler req).isStatusResponse = true)
    ∧ (∀ (handler : Except String Unit) (req : GrpcRequest),
      cfg.MatchMethod req.fullMethod = (some rule, true) →
      grpcStageFailure vb req rule →
      (StreamServerInterceptorStep cfg vb handler req).handlerInvoked = false ∧
      (StreamServerInterceptorStep cfg vb handler req).isStatusResponse = true) := by
  refine ⟨?_, ?_, ?_⟩
  · intro req hmatch hfail
    have key : ¬ ((PaymentMiddlewareStep cfg vb req).handlerInvoked = true) := by
      intro htrue
      obtain ⟨hne, payload, v, s, hp, hv, hval, hs⟩ := http_handler_stages hmatch htrue
      rcases hfail with habs | ⟨e, he⟩ | ⟨p', hp', hrest⟩
      · exact hne habs
      · rw [hp] at he; cases he
      · rw [hp] at hp'
        injection hp' with hpp
        subst hpp
        rcases hrest with ⟨e, he⟩ | ⟨v', hv', hvv⟩
        · rw [hv] at he; cases he
        · rw [hv] at hv'
          injection hv' with hvp
          subst hvp
          rcases hvv with hfl | ⟨-, e, he⟩
          · rw [hval] at hfl; cases hfl
          · rw [hs] at he; cases he
    have hnot : (PaymentMiddlewareStep cfg vb req).handlerInvoked = false := by
      cases hb : (PaymentMiddlewareStep cfg vb req).handlerInvoked
      · rfl
      · exact absurd hb key
    refine ⟨hnot, ?_⟩
    cases hstep : PaymentMiddlewareStep cfg vb req with
    | passThrough => rw [hstep] at hnot; cases hnot
    | settled b pc rc => rw [hstep] at hnot; cases hnot
    | paymentRequired html body => rfl
    | clientError m => rfl
    | serverError m => rfl
  · intro handler req hmatch hfail
    have key : ¬ ((UnaryServerInterceptorStep cfg vb handler req).handlerInvoked = true) := by
      intro htrue
      obtain ⟨hmd, payload, b, r, rest, hE, hB, v, s, hv, hval, hs⟩ :=
        unary_handler_stages hmatch htrue
      rcases hfail with hnomd | ⟨e, b', hEe⟩ | ⟨p', b', r', rest', hE', hB', hrest⟩
      · rw [hmd] at hnomd; cases hnomd
      · rw [hE] at hEe; cases hEe
      · rw [hE] at hE'
        injection hE' with hE1 hE2
        injection hE1 with hpp
        subst hpp
        rw [hB] at hB'
        injection hB' with hB1 hB2
        subst hB1
        rcases hrest with ⟨e, he⟩ | ⟨v', hv', hvv⟩
        · rw [hv] at he; cases he
        · rw [hv] at hv'
          injection hv' with hvp
          subst hvp
          rcases hvv with hfl | ⟨-, e, he⟩
          · rw [hval] at hfl; cases hfl
          · rw [hs] at he; cases he
    have hnot : (UnaryServerInterceptorStep cfg vb handler req).handlerInvoked = false := by
      cases hb : (UnaryServerInterceptorStep cfg vb handler req).handlerInvoked
      · rfl
      · exact absurd hb key
    refine ⟨hnot, ?_⟩
    cases hstep : UnaryServerInterceptorStep cfg vb handler req with
    | passThrough => rw [hstep] at hnot; cases hnot
    | handlerFailed pc e => rw [hstep] at hnot; cases hnot
    | settledOk b pc rc => rw [hstep] at hnot; cases hnot
    | paymentRequiredStatus body => rfl
    | internalStatus m => rfl
    | unavailableStatus m => rfl
  · intro handler req hmatch hfail
    have key : ¬ ((StreamServerInterceptorStep cfg vb handler req).handlerInvoked = true) := by
      intro htrue
      obtain ⟨hmd, payload, b, r, rest, hE, hB, v, s, hv, hval, hs⟩ :=
        stream_handler_stages hmatch htrue
      rcases hfail with hnomd | ⟨e, b', hEe⟩ | ⟨p', b', r', rest', hE', hB', hrest⟩
      · rw [hmd] at hnomd; cases hnomd
      · rw [hE] at hEe; cases hEe
      · rw [hE] at hE'
        injection hE' with hE1 hE2
        injection hE1 with hpp
        subst hpp
        rw [hB] at hB'
        injection hB' with hB1 hB2
        subst hB1
        rcases hrest with ⟨e, he⟩ | ⟨v', hv', hvv⟩
        · rw [hv] at he; cases he
        · rw [hv] at hv'
          injection hv' with hvp
          subst hvp
          rcases hvv with hfl | ⟨-, e, he⟩
          · rw [hval] at hfl; cases hfl
          · rw [hs] at he; cases he
    have hnot : (StreamServerInterceptorStep cfg vb handler req).handlerInvoked = false := by
      cases hb : (StreamServerInterceptorStep cfg vb handler req).handlerInvoked
      · rfl
      · exact absurd hb key
    refine ⟨hnot, ?_⟩
    cases hstep : StreamServerInterceptorStep cfg vb handler req with
    | passThrough => rw [hstep] at hnot; cases hnot
    | handlerFailed pc e => rw [hstep] at hnot; cases hnot
    | settledOk b pc rc => rw [hstep] at hnot; cases hnot
    | paymentRequiredStatus body => rfl
    | internalStatus m => rfl
    | unavailableStatus m => rfl

/-- Witness for C1: with no credential on the priced endpoint and
method, all three transports refuse to invoke the handler and answer
with a status response. -/
theorem failed_pipeline_never_invokes_handler_witness :
    ((PaymentMiddlewareStep cfgEx vbOk reqNoCred).handlerInvoked = false ∧
      (PaymentMiddlewareStep cfgEx vbOk reqNoCred).statusCode.isSome = true) ∧
    ((UnaryServerInterceptorStep cfgEx vbOk (.ok ()) grpcReqNoCred).handlerInvoked = false ∧
      (UnaryServerInterceptorStep cfgEx vbOk (.ok ()) grpcReqNoCred).isStatusResponse = true) ∧
    ((StreamServerInterceptorStep cfgEx vbOk (.ok ()) grpcReqNoCred).handlerInvoked = false ∧
      (StreamServerInterceptorStep cfgEx vbOk (.ok ()) grpcReqNoCred).isStatusResponse = true) :=
  ⟨(failed_pipeline_never_invokes_handler cfgEx vbOk ruleEx).1 reqNoCred
      (by decide) (Or.inl (by decide)),
   (failed_pipeline_never_invokes_handler cfgEx vbOk ruleEx).2.1 (.ok ()) grpcReqNoCred
      (by decide)
      (Or.inr (Or.inl ⟨"no payment found in metadata", false, by decide⟩)),
   (failed_pipeline_never_invokes_handler cfgEx vbOk ruleEx).2.2 (.ok ()) grpcReqNoCred
      (by decide)
      (Or.inr (Or.inl ⟨"no payment found in metadata", false, by decide⟩))⟩

end X402
